import Mathlib

/-!
Verification development for the OpenAPI-to-Protobuf schema compiler
(`openapi_to_proto_code_with_enums.py`).  The Python program is shallowly
embedded: YAML/JSON documents become the inductive `Node`; Python dict
operations become explicit lookups; Python exceptions (KeyError,
AttributeError, TypeError) become `Except.error`; the module-level mutable
registries (`enums_defined`, `nested_enum_defs`) become an explicit
`GenState` threaded through the generators.
-/

namespace OpenapiToProto

/-- ASCII alphanumeric test, matching the regex class `[A-Za-z0-9]`. -/
def isAlnumAscii (c : Char) : Bool :=
  (('A' ≤ c && c ≤ 'Z') || ('a' ≤ c && c ≤ 'z') || ('0' ≤ c && c ≤ '9'))

/-- ASCII uppercase of one character, as Python `str.upper` acts on ASCII. -/
def upChar (c : Char) : Char :=
  if 'a' ≤ c && c ≤ 'z' then Char.ofNat (c.toNat - 32) else c

/-- ASCII lowercase of one character, as Python `str.lower` acts on ASCII. -/
def lowChar (c : Char) : Char :=
  if 'A' ≤ c && c ≤ 'Z' then Char.ofNat (c.toNat + 32) else c

/-- Python `str.upper` (ASCII fragment). -/
def pyUpper (s : String) : String := ⟨s.data.map upChar⟩

/-- Python `str.lower` (ASCII fragment). -/
def pyLower (s : String) : String := ⟨s.data.map lowChar⟩

/-- Python `str.capitalize`: first character uppercased, the rest lowercased. -/
def pyCapitalize (s : String) : String :=
  match s.data with
  | [] => ""
  | c :: cs => ⟨upChar c :: cs.map lowChar⟩

example : pyUpper "order_status" = "ORDER_STATUS" := by decide
example : pyCapitalize "myStatus" = "Mystatus" := by decide
example : upChar 'r' = 'R' := by decide

/-- Maximal runs of ASCII-alphanumeric characters, the nonempty pieces
produced by `re.split` on the class complement in `to_camel`. -/
def runsAux : List Char → List Char → List (List Char)
  | [], acc => if acc.isEmpty then [] else [acc.reverse]
  | c :: cs, acc =>
    if isAlnumAscii c then runsAux cs (c :: acc)
    else if acc.isEmpty then runsAux cs acc
    else acc.reverse :: runsAux cs []

/-- Python `p[:1].upper() + p[1:]`: uppercase the first character only. -/
def capFirst : List Char → List Char
  | [] => []
  | c :: cs => upChar c :: cs

/-- `to_camel`: split on non-alphanumeric runs, uppercase each piece's first
character, join.  Mirrors the source's PascalCase conversion. -/
def to_camel (s : String) : String :=
  ⟨((runsAux s.data []).map capFirst).flatten⟩

/-- `safe_name`: replace every character outside `[A-Za-z0-9_]` with `_`. -/
def safe_name (n : String) : String :=
  ⟨n.data.map (fun c => if isAlnumAscii c || c = '_' then c else '_')⟩

/-- `sanitize_tag`: delete every character outside `[A-Za-z0-9]`. -/
def sanitize_tag (t : String) : String := ⟨t.data.filter isAlnumAscii⟩

/-- `normalize_operation_id`: rewrite a case-insensitive `retrieve` prefix to
`get`; used for wrapper-message naming only. -/
def normalize_operation_id (op : String) : String :=
  if "retrieve".data.isPrefixOf (pyLower op).data then
    "get" ++ ⟨op.data.drop 8⟩
  else op

/-- Python `s.split(sep)` for a one-character separator: no run collapsing,
empty pieces kept. -/
def splitCharAux (sep : Char) : List Char → List Char → List String
  | [], acc => [⟨acc.reverse⟩]
  | c :: cs, acc =>
    if c = sep then ⟨acc.reverse⟩ :: splitCharAux sep cs []
    else splitCharAux sep cs (c :: acc)

def splitChar (sep : Char) (s : String) : List String := splitCharAux sep s.data []

/-- Last element of a list, with a default. -/
def lastOr (d : String) : List String → String
  | [] => d
  | [x] => x
  | _ :: x :: xs => lastOr d (x :: xs)

/-- Final segment of a slash-separated reference path: `ref.split("/")[-1]`. -/
def last_segment (ref : String) : String := lastOr "" (splitChar '/' ref)

/-- Substring containment, Python `pat in s` on strings. -/
def containsSub : List Char → List Char → Bool
  | pat, [] => pat.isEmpty
  | pat, c :: cs => pat.isPrefixOf (c :: cs) || containsSub pat cs

/-- Python `"\n".join`. -/
def joinLines : List String → String
  | [] => ""
  | [x] => x
  | x :: y :: xs => x ++ "\n" ++ joinLines (y :: xs)

example : to_camel "getOrderById" = "GetOrderById" := by decide
example : normalize_operation_id "retrieveOrder" = "getOrder" := by decide
example : normalize_operation_id "getOrder" = "getOrder" := by decide
example : last_segment "#/components/schemas/Order" = "Order" := by decide
example : sanitize_tag "Order API" = "OrderAPI" := by decide

/-- Parsed YAML/JSON tree.  Dictionaries keep insertion order as association
lists; numeric YAML keys (for example response codes) appear as their decimal
strings. -/
inductive Node where
  | obj  : List (String × Node) → Node
  | arr  : List Node → Node
  | str  : String → Node
  | int  : Int → Node
  | bool : Bool → Node
  | null : Node

/-- First-match association-list lookup, the model of Python dict access. -/
def lookup : List (String × Node) → String → Option Node
  | [], _ => none
  | (k, v) :: rest, key => if k = key then some v else lookup rest key

/-- Python truthiness of a document node. -/
def Node.truthy : Node → Bool
  | .obj l => !l.isEmpty
  | .arr l => !l.isEmpty
  | .str s => !s.isEmpty
  | .int i => i != 0
  | .bool b => b
  | .null => false

def optTruthy : Option Node → Bool
  | none => false
  | some n => n.truthy

/-- Python `d.get(k)`: `None` when the key is absent, `AttributeError` when
the receiver is not a dict. -/
def Node.get? : Node → String → Except String (Option Node)
  | .obj l, k => .ok (lookup l k)
  | _, _ => .error "AttributeError: get"

/-- Python `d.get(k, default)`. -/
def Node.getD (n : Node) (k : String) (d : Node) : Except String Node := do
  return (← n.get? k).getD d

/-- Python `d[k]` subscription: `KeyError` when absent, `TypeError` when the
receiver cannot be subscripted by a string. -/
def subscript (n : Node) (k : String) : Except String Node :=
  match n with
  | .obj l =>
    match lookup l k with
    | some v => .ok v
    | none => .error ("KeyError: " ++ k)
  | _ => .error "TypeError: subscript"

/-- Python `k in n`: key test for dicts, membership for lists, substring test
for strings, `TypeError` otherwise. -/
def Node.hasKey : Node → String → Except String Bool
  | .obj l, k => .ok (lookup l k).isSome
  | .arr l, k => .ok (l.any (fun x => match x with | .str s => s = k | _ => false))
  | .str s, k => .ok (containsSub k.data s.data)
  | _, _ => .error "TypeError: in"

/-- Python `d.items()`: `AttributeError` when the receiver is not a dict. -/
def Node.items : Node → Except String (List (String × Node))
  | .obj l => .ok l
  | _ => .error "AttributeError: items"

/-- Python iteration `for x in n`: list elements, string characters, dict
keys; `TypeError` otherwise. -/
def iterOf : Node → Except String (List Node)
  | .arr l => .ok l
  | .str s => .ok (s.data.map (fun c => .str ⟨[c]⟩))
  | .obj l => .ok (l.map (fun p => .str p.1))
  | _ => .error "TypeError: not iterable"

/-- A node required to be a string (Python raises when a string method is
applied to anything else). -/
def expectStr : Node → Except String String
  | .str s => .ok s
  | _ => .error "TypeError: expected str"

/-- `d.get(k) is not None`: present and not null. -/
def getIsNotNone (l : List (String × Node)) (k : String) : Bool :=
  match lookup l k with
  | some v => match v with | .null => false | _ => true
  | none => false

/-- `map_type`: the fixed primitive-type table with `string` default. -/
def map_type (t : String) : String :=
  if t = "string" then "string"
  else if t = "integer" then "int32"
  else if t = "number" then "double"
  else if t = "boolean" then "bool"
  else "string"

/-- `map_type` applied to a document node: dict and list arguments are
unhashable for the table lookup; every other non-string hits the default. -/
def mapTypeNode : Node → Except String String
  | .str s => .ok (map_type s)
  | .obj _ => .error "TypeError: unhashable"
  | .arr _ => .error "TypeError: unhashable"
  | _ => .ok "string"

/-- `map_type(sch.get("type", "string"))`. -/
def mapTypeOf (sch : Node) : Except String String := do
  mapTypeNode (← sch.getD "type" (.str "string"))

/-- `resolve_ref`'s walk: subscript the document by each pointer segment. -/
def walk (n : Node) : List String → Except String Node
  | [] => .ok n
  | k :: ks => do walk (← subscript n k) ks

/-- Segments of a pointer after stripping the leading `#/` characters. -/
def refSegments (ref : String) : List String :=
  splitChar '/' ⟨ref.data.dropWhile (fun c => c = '#' || c = '/')⟩

/-- `resolve_ref`: dereference an internal `#/a/b/c` pointer; any absent
segment raises. -/
def resolve_ref (ref : String) (spec : Node) : Except String Node :=
  walk spec (refSegments ref)

/-- `is_freeform_object`: a dict schema of declared type `object` with falsy
`properties` and falsy `additionalProperties`. -/
def is_freeform_object : Node → Bool
  | .obj l =>
    (match lookup l "type" with | some (.str t) => t = "object" | _ => false)
      && !optTruthy (lookup l "properties")
      && !optTruthy (lookup l "additionalProperties")
  | _ => false

/-- Run-scoped registries: the module globals `enums_defined` and
`nested_enum_defs`, threaded explicitly. -/
structure GenState where
  enums_defined : List String
  nested_enum_defs : List String
deriving DecidableEq

def initState : GenState := ⟨[], []⟩

structure EnumMember where
  ident : String
  tag : Nat
deriving DecidableEq

structure EnumDef where
  name : String
  members : List EnumMember
deriving DecidableEq

def renderEnumMember (m : EnumMember) : String :=
  "  " ++ m.ident ++ " = " ++ toString m.tag ++ ";"

def renderEnum (e : EnumDef) : String :=
  joinLines (("enum " ++ e.name ++ " \x7b") :: e.members.map renderEnumMember ++ ["\x7d"])

inductive FieldType where
  | plain (typ : String)
  | repeated (typ : String)
  | mapStr (vtyp : String)
deriving DecidableEq

structure Field where
  ftype : FieldType
  name : String
  tag : Nat
deriving DecidableEq

def renderFieldType : FieldType → String
  | .plain t => t
  | .repeated t => "repeated " ++ t
  | .mapStr v => "map<string, " ++ v ++ ">"

def renderField (f : Field) : String :=
  "  " ++ renderFieldType f.ftype ++ " " ++ f.name ++ " = " ++ toString f.tag ++ ";"

structure MessageDef where
  name : String
  fields : List Field
deriving DecidableEq

def renderMessage (m : MessageDef) : String :=
  joinLines (("message " ++ m.name ++ " \x7b") :: m.fields.map renderField ++ ["\x7d"])

/-- One-field wrapper `message name { repeated ity items = 1; }` used for
array schemas and inline array responses. -/
def arrayWrapper (name ity : String) : MessageDef :=
  ⟨name, [⟨.repeated ity, "items", 1⟩]⟩

/-- Identifier for one declared enum literal: `safe_name(val).upper()`:
re.sub raises on a non-string literal. -/
def enumIdent : Node → Except String String
  | .str s => .ok (pyUpper (safe_name s))
  | _ => .error "TypeError: re.sub expects str"

/-- Members for the declared literals, tags counted from `idx`. -/
def enumMembers : List Node → Nat → Except String (List EnumMember)
  | [], _ => .ok []
  | v :: rest, idx => do
    let id ← enumIdent v
    let ms ← enumMembers rest (idx + 1)
    .ok (⟨id, idx⟩ :: ms)

/-- `generate_enum`: returns `none` when the name is already registered;
otherwise registers it and builds the sentinel plus the literal members with
tags from 1. -/
def generate_enum (name : String) (schema : Node) (st : GenState) :
    Except String (Option EnumDef × GenState) := do
  if name ∈ st.enums_defined then return (none, st)
  let st' : GenState := { st with enums_defined := st.enums_defined ++ [name] }
  let vals ← match (← schema.get? "enum") with
             | some v => iterOf v
             | none => pure []
  let ms ← enumMembers vals 1
  return (some ⟨name, ⟨pyUpper name ++ "_UNSPECIFIED", 0⟩ :: ms⟩, st')

/-- Declared-type test `sch.get("type") == t` on a dict's entries. -/
def typeIs (l : List (String × Node)) (t : String) : Bool :=
  match lookup l "type" with
  | some (.str s) => s = t
  | _ => false

/-- Shared item-type computation for array schemas:
referenced item type when `items` is a dict carrying `$ref`, else the mapped
scalar of the items' primitive type. -/
def arrayItemType (items : Node) : Except String String :=
  match items with
  | .obj li =>
    if (lookup li "$ref").isSome then do
      pure (last_segment (← expectStr (← subscript items "$ref")))
    else mapTypeOf items
  | _ => mapTypeOf items

/-- Value type of a `map<string, V>` field: mapped primitive of the
`additionalProperties` schema, `string` for a bare flag. -/
def mapValueType : Node → Except String String
  | .obj l =>
    match lookup l "type" with
    | some v => mapTypeNode v
    | none => .ok "string"
  | _ => .ok "string"

/-- Shape and name of the field one property produces, with the enum
side effects on the registries; the caller attaches the tag.  Follows the
property branch order of `generate_message_from_schema`: inline enum,
reference, array, map, scalar. -/
def genFieldCore (prop : String) (val : Node) (st : GenState) :
    Except String ((FieldType × String) × GenState) := do
  let field := safe_name prop
  match val with
  | .obj l =>
    if getIsNotNone l "enum" then
      let enum_name := pyCapitalize (safe_name prop)
      let (eOpt, st1) ← generate_enum enum_name val st
      let st2 := match eOpt with
        | some e => { st1 with nested_enum_defs := st1.nested_enum_defs ++ [renderEnum e] }
        | none => st1
      .ok ((.plain enum_name, field), st2)
    else if (lookup l "$ref").isSome then
      let r ← expectStr (← subscript val "$ref")
      .ok ((.plain (last_segment r), field), st)
    else if typeIs l "array" then
      let items ← val.getD "items" (.obj [])
      let typ ← arrayItemType items
      .ok ((.repeated typ, field), st)
    else if typeIs l "object" && (lookup l "additionalProperties").isSome then
      let ap ← subscript val "additionalProperties"
      let vtype ← mapValueType ap
      .ok ((.mapStr vtype, field), st)
    else
      let t ← mapTypeOf val
      .ok ((.plain t, field), st)
  | _ => .ok ((.plain "string", field), st)

/-- One property becomes one field carrying the current tag. -/
def genField (prop : String) (val : Node) (idx : Nat) (st : GenState) :
    Except String (Field × GenState) := do
  let ((ft, nm), st') ← genFieldCore prop val st
  .ok (⟨ft, nm, idx⟩, st')

/-- The property loop: every property yields exactly one field and advances
the tag counter by one. -/
def genFields : List (String × Node) → Nat → GenState → Except String (List Field × GenState)
  | [], _, st => .ok ([], st)
  | (p, v) :: rest, idx, st => do
    let (f, st1) ← genField p v idx st
    let (fs, st2) ← genFields rest (idx + 1) st1
    .ok (f :: fs, st2)

/-- Top-level dereference step of `generate_message_from_schema`. -/
def derefTop (schema spec : Node) : Except String Node :=
  match schema with
  | .obj l =>
    match lookup l "$ref" with
    | some r => do resolve_ref (← expectStr r) spec
    | none => pure schema
  | _ => pure schema

/-- `(schema.get("properties") or {}).items()`. -/
def propsOf (schema : Node) : Except String (List (String × Node)) := do
  match (← schema.get? "properties") with
  | some p => if p.truthy then p.items else pure []
  | none => pure []

/-- `generate_message_from_schema`: dereference a top-level `$ref`, then walk
the properties assigning tags from 1. -/
def generate_message_from_schema (name : String) (schema : Node) (spec : Node) (st : GenState) :
    Except String (MessageDef × GenState) := do
  let schema ← derefTop schema spec
  let props ← propsOf schema
  let (fs, st') ← genFields props 1 st
  return (⟨name, fs⟩, st')

/-- Top-level enum-kind schema test: `schema.get("enum") is not None`. -/
def isEnumSchema : Node → Bool
  | .obj l => getIsNotNone l "enum"
  | _ => false

/-- Top-level array-kind schema test: `schema.get("type") == "array"`. -/
def isArraySchema : Node → Bool
  | .obj l => typeIs l "array"
  | _ => false

/-- Catalogue walk of `generate_schema_messages`: enums delegate to the
registry, array schemas become one-field wrappers, freeform objects are
skipped, everything else becomes a message. -/
def schemasLoop (spec : Node) : List (String × Node) → GenState → Except String (List String × GenState)
  | [], st => .ok ([], st)
  | (name, schema) :: rest, st => do
    if isEnumSchema schema then
      let (eOpt, st1) ← generate_enum name schema st
      let (ms, st2) ← schemasLoop spec rest st1
      .ok ((match eOpt with | some e => [renderEnum e] | none => []) ++ ms, st2)
    else if isArraySchema schema then
      let items ← schema.getD "items" (.obj [])
      let ity ← arrayItemType items
      let (ms, st2) ← schemasLoop spec rest st
      .ok (renderMessage (arrayWrapper name ity) :: ms, st2)
    else if is_freeform_object schema then
      schemasLoop spec rest st
    else
      let (m, st1) ← generate_message_from_schema name schema spec st
      let (ms, st2) ← schemasLoop spec rest st1
      .ok (renderMessage m :: ms, st2)

/-- `generate_schema_messages` over `components.schemas`. -/
def generate_schema_messages (spec : Node) (st : GenState) :
    Except String (List String × GenState) := do
  let comps ← spec.getD "components" (.obj [])
  let sNode ← comps.getD "schemas" (.obj [])
  let sNode := if sNode.truthy then sNode else Node.obj []
  let schemas ← sNode.items
  schemasLoop spec schemas st

/-- `find_json_schema`: first media key containing `application/json`, its
`schema` entry. -/
def find_json_schema : List (String × Node) → Except String (Option Node)
  | [] => .ok none
  | (media, o) :: rest =>
    if containsSub "application/json".data media.data then o.get? "schema"
    else find_json_schema rest

/-- `extract_body_schema`: dereference a `$ref` request body, then pick the
JSON media schema.  A falsy `requestBody` counts as absent. -/
def extract_body_schema (op : Node) (spec : Node) : Except String (Option Node) := do
  let rbOpt ← op.get? "requestBody"
  match rbOpt with
  | none => return none
  | some rb0 =>
    if !rb0.truthy then return none
    let rb ← (do
      if (← rb0.hasKey "$ref") then
        resolve_ref (← expectStr (← subscript rb0 "$ref")) spec
      else pure rb0)
    let content ← rb.getD "content" (.obj [])
    find_json_schema (← content.items)

/-- Decimal value of an all-digit string (Python `str.isdigit` plus `int`). -/
def toNatAux : List Char → Nat → Option Nat
  | [], acc => some acc
  | c :: cs, acc =>
    if '0' ≤ c && c ≤ '9' then toNatAux cs (acc * 10 + (c.toNat - 48))
    else none

def strToNat? (s : String) : Option Nat :=
  match s.data with
  | [] => none
  | _ => toNatAux s.data 0

/-- First response whose status key is all digits and in `[200, 300)`. -/
def firstSuccess : List (String × Node) → Option Node
  | [] => none
  | (code, o) :: rest =>
    match strToNat? code with
    | some c => if 200 ≤ c && c < 300 then some o else firstSuccess rest
    | none => firstSuccess rest

/-- Response-type computation for the selected success response, the tail of
`extract_response_schema`: a response-level `$ref` resolves to the referenced
name (freeform becomes the Struct type); otherwise the JSON content schema is
returned inline under the `<OperationId>Response` name; no content means
`Empty`. -/
def responseTypeOf (spec : Node) (normId : String) (success : Node) :
    Except String (String × Option Node) := do
  if (← success.hasKey "$ref") then
    let ref ← expectStr (← subscript success "$ref")
    let resolved ← resolve_ref ref spec
    if is_freeform_object resolved then return ("google.protobuf.Struct", none)
    return (to_camel (normalize_operation_id (last_segment ref)), none)
  let content ← success.getD "content" (.obj [])
  let schemaOpt ← find_json_schema (← content.items)
  match schemaOpt with
  | none => return ("Empty", none)
  | some schema =>
    if !schema.truthy then return ("Empty", none)
    -- the array and non-array arms of the source coincide: both return the
    -- `<OperationId>Response` name with the schema passed along inline
    let _t ← schema.get? "type"
    return (to_camel normId ++ "Response", some schema)

/-- `extract_response_schema`: select the first 2xx response, else `default`,
else the `Empty` type; then classify. -/
def extract_response_schema (op : Node) (spec : Node) :
    Except String (String × Option Node) := do
  let rawIdN ← op.get? "operationId"
  let rawId ← match rawIdN with
    | some (.str s) => pure s
    | _ => Except.error "AttributeError: lower"
  let normId := normalize_operation_id rawId
  let responses ← op.getD "responses" (.obj [])
  let respItems ← responses.items
  let success0 := firstSuccess respItems
  let defaultOpt ← responses.get? "default"
  let successOr := if optTruthy success0 then success0 else defaultOpt
  match successOr with
  | none => return ("Empty", none)
  | some success =>
    if !success.truthy then return ("Empty", none)
    responseTypeOf spec normId success

/-- Field shape of one in-location parameter inside
`generate_param_message`: `p.get("schema", {}) or {}` then reference name or
mapped scalar. -/
def paramFieldCore (p : Node) : Except String (FieldType × String) := do
  let sch0 ← p.getD "schema" (.obj [])
  let sch := if sch0.truthy then sch0 else Node.obj []
  let ftype ← (do
    if (← sch.hasKey "$ref") then
      pure (last_segment (← expectStr (← subscript sch "$ref")))
    else mapTypeOf sch)
  let pname ← expectStr (← subscript p "name")
  return (.plain ftype, safe_name pname)

def paramFields : List Node → Nat → Except String (List Field)
  | [], _ => .ok []
  | p :: rest, idx => do
    let (ft, nm) ← paramFieldCore p
    let fs ← paramFields rest (idx + 1)
    .ok (⟨ft, nm, idx⟩ :: fs)

/-- `generate_param_message`: one field per parameter, tags from 1. -/
def generate_param_message (name : String) (params : List Node) :
    Except String MessageDef := do
  let fs ← paramFields params 1
  return ⟨name, fs⟩

/-- The extras registry: an insertion-ordered name-to-block dict. -/
structure Extras where
  entries : List (String × String)
deriving DecidableEq

def Extras.empty : Extras := ⟨[]⟩

def Extras.containsName (e : Extras) (n : String) : Bool :=
  e.entries.any (fun p => p.1 = n)

def Extras.push (e : Extras) (n v : String) : Extras := ⟨e.entries ++ [(n, v)]⟩

/-- Python `dict.setdefault` (the value argument having been evaluated by the
caller, side effects included). -/
def Extras.setdefault (e : Extras) (n v : String) : Extras :=
  if e.containsName n then e else e.push n v

/-- Field shape of one parameter inside the composite request synthesis
(this site reads `p.get("schema", {})` without the `or {}` guard). -/
def compositeParamCore (p : Node) : Except String (FieldType × String) := do
  let sch ← p.getD "schema" (.obj [])
  let ftype ← (do
    if (← sch.hasKey "$ref") then
      pure (last_segment (← expectStr (← subscript sch "$ref")))
    else mapTypeOf sch)
  let pname ← expectStr (← subscript p "name")
  return (.plain ftype, safe_name pname)

def compositeParamFields : List Node → Nat → Except String (List Field)
  | [], _ => .ok []
  | p :: rest, idx => do
    let (ft, nm) ← compositeParamCore p
    let fs ← compositeParamFields rest (idx + 1)
    .ok (⟨ft, nm, idx⟩ :: fs)

/-- Composite `<OperationId>Request`: parameter fields with tags from 1,
then the trailing `body` field at the next tag. -/
def compositeRequestMessage (rname req_type : String) (in_params : List Node) :
    Except String MessageDef := do
  let pfs ← compositeParamFields in_params 1
  return ⟨rname, pfs ++ [⟨.plain req_type, "body", pfs.length + 1⟩]⟩

/-- Request-body type resolution (`generate_services` lines 244-253):
referenced bodies use the referenced name (freeform resolves to the Struct
type), inline freeform bodies use the Struct type, other inline bodies
synthesize `<OperationId>Body` as an extra. -/
def resolveBodyType (spec : Node) (normId : String) (body_schema : Node)
    (extras : Extras) (st : GenState) : Except String (String × Extras × GenState) := do
  match body_schema with
  | .obj l =>
    match lookup l "$ref" with
    | some rNode => do
      let refStr ← expectStr rNode
      let ref := last_segment refStr
      let resolved ← resolve_ref refStr spec
      let rt := if is_freeform_object resolved then "google.protobuf.Struct" else ref
      return (rt, extras, st)
    | none =>
      if is_freeform_object body_schema then
        return ("google.protobuf.Struct", extras, st)
      else
        let bname := to_camel normId ++ "Body"
        let (msg, st') ← generate_message_from_schema bname body_schema spec st
        return (bname, extras.setdefault bname (renderMessage msg), st')
  | _ =>
    if is_freeform_object body_schema then
      return ("google.protobuf.Struct", extras, st)
    else
      let bname := to_camel normId ++ "Body"
      let (msg, st') ← generate_message_from_schema bname body_schema spec st
      return (bname, extras.setdefault bname (renderMessage msg), st')

/-- Request-type resolution per operation (`generate_services` lines
242-274): body plus parameters synthesize the composite request; only
parameters synthesize the parameter message; neither gives `Empty`. -/
def resolveRequest (spec : Node) (normId : String) (op : Node) (in_params : List Node)
    (extras : Extras) (st : GenState) : Except String (String × Extras × GenState) := do
  let bodyOpt ← extract_body_schema op spec
  let bodyT := match bodyOpt with
    | some b => if b.truthy then some b else none
    | none => none
  match bodyT with
  | some body_schema =>
    let (req_type, e1, s1) ← resolveBodyType spec normId body_schema extras st
    if in_params.isEmpty then
      return (req_type, e1, s1)
    else
      let rname := to_camel normId ++ "Request"
      let e2 ← (do
        if e1.containsName rname then pure e1
        else do
          let m ← compositeRequestMessage rname req_type in_params
          pure (e1.push rname (renderMessage m)))
      return (rname, e2, s1)
  | none =>
    if in_params.isEmpty then
      return ("Empty", extras, st)
    else
      let rname := to_camel normId ++ "Request"
      let m ← generate_param_message rname in_params
      return (rname, extras.setdefault rname (renderMessage m), st)

/-- Response-type resolution per operation (`generate_services` lines
277-285): inline arrays synthesize the `repeated` wrapper, other inline
schemas synthesize the response message, plain names pass through. -/
def resolveResponse (spec : Node) (op : Node) (extras : Extras) (st : GenState) :
    Except String (String × Extras × GenState) := do
  let (res_type, inl) ← extract_response_schema op spec
  match inl with
  | none => return (res_type, extras, st)
  | some inlSchema =>
    let t ← inlSchema.get? "type"
    let isArr : Bool := match t with | some (.str s) => s == "array" | _ => false
    if isArr then
      let items ← inlSchema.getD "items" (.obj [])
      let ity ← arrayItemType items
      return (res_type, extras.setdefault res_type (renderMessage (arrayWrapper res_type ity)), st)
    else
      let (msg, st') ← generate_message_from_schema res_type inlSchema spec st
      return (res_type, extras.setdefault res_type (renderMessage msg), st')

/-- RPC block of one operation with its HTTP binding: `post/put/patch` bind
the `body` field, other methods bind the wildcard. -/
def rpcBlockLines (rpc req_type res_type method path : String) : List String :=
  [ "  rpc " ++ rpc ++ " (" ++ req_type ++ ") returns (" ++ res_type ++ ") \x7b",
    "    option (google.api.http) = \x7b",
    "      " ++ method ++ ": \"" ++ path ++ "\"",
    if method == "post" || method == "put" || method == "patch" then
      "      body: \"body\""
    else
      "      body: \"*\"",
    "    \x7d;",
    "  \x7d" ]

/-- `op.get("operationId")` followed by `normalize`: a missing or non-string
id raises inside `op.lower()`. -/
def opIdString (op : Node) : Except String String := do
  match (← op.get? "operationId") with
  | some (.str s) => pure s
  | _ => Except.error "AttributeError: lower"

/-- Parameter resolution against `components.parameters`: a `$ref` entry is
replaced by the catalogue entry under the reference's final segment. -/
def resolveParams (allParams : Node) : List Node → Except String (List Node)
  | [] => .ok []
  | p :: rest => do
    let p' ← (do
      if (← p.hasKey "$ref") then do
        let r ← expectStr (← subscript p "$ref")
        allParams.getD (last_segment r) (.obj [])
      else pure p)
    let ps ← resolveParams allParams rest
    .ok (p' :: ps)

/-- Keep only parameters whose `in` is `path`, `query` or `header`. -/
def filterInLoc : List Node → Except String (List Node)
  | [] => .ok []
  | p :: rest => do
    let loc ← p.get? "in"
    let keep : Bool := match loc with
      | some (.str s) => s == "path" || s == "query" || s == "header"
      | _ => false
    let fs ← filterInLoc rest
    .ok (if keep then p :: fs else fs)

/-- One operation: derive its request and response types (with extras and
registry side effects) and render its RPC block. -/
def processOp (spec allParams : Node) (path method : String) (op : Node)
    (extras : Extras) (st : GenState) : Except String (List String × Extras × GenState) := do
  let rawId ← opIdString op
  let normId := normalize_operation_id rawId
  let psNode ← op.getD "parameters" (.arr [])
  let params0 ← iterOf psNode
  let params ← resolveParams allParams params0
  let in_params ← filterInLoc params
  let (req_type, e1, s1) ← resolveRequest spec normId op in_params extras st
  let (res_type, e2, s2) ← resolveResponse spec op e1 s1
  return (rpcBlockLines rawId req_type res_type method path, e2, s2)

/-- Hashable tag key of the group map (dicts and lists raise). -/
inductive TagKey where
  | s (v : String)
  | i (v : Int)
  | b (v : Bool)
  | nul
deriving DecidableEq

def tagKeyOf : Node → Except String TagKey
  | .str v => .ok (.s v)
  | .int v => .ok (.i v)
  | .bool v => .ok (.b v)
  | .null => .ok .nul
  | _ => .error "TypeError: unhashable key"

/-- `tag_map[tag].append(entry)` on an insertion-ordered map. -/
def tagMapAdd (m : List (TagKey × List (String × String × Node))) (k : TagKey)
    (v : String × String × Node) : List (TagKey × List (String × String × Node)) :=
  match m with
  | [] => [(k, [v])]
  | (k', vs) :: rest =>
    if k' = k then (k', vs ++ [v]) :: rest else (k', vs) :: tagMapAdd rest k v

/-- Python `xs[0]`. -/
def index0 : Node → Except String Node
  | .arr (x :: _) => .ok x
  | .arr [] => .error "IndexError"
  | .str s =>
    match s.data with
    | c :: _ => .ok (.str ⟨[c]⟩)
    | [] => .error "IndexError"
  | .obj _ => .error "KeyError: 0"
  | _ => .error "TypeError: index"

/-- Inner loop over one path item's methods: keep the five HTTP verbs and
group by first declared tag (default `[base]`). -/
def methodsLoop (base path : String) (acc : List (TagKey × List (String × String × Node))) :
    List (String × Node) → Except String (List (TagKey × List (String × String × Node)))
  | [] => .ok acc
  | (m, op) :: rest => do
    let method := pyLower m
    if method == "get" || method == "post" || method == "put" || method == "patch"
        || method == "delete" then
      let tagsNode ← op.getD "tags" (.arr [.str base])
      let tag0 ← index0 tagsNode
      let key ← tagKeyOf tag0
      methodsLoop base path (tagMapAdd acc key (path, method, op)) rest
    else methodsLoop base path acc rest

/-- Outer loop over the path map, first-appearance order. -/
def collectOps (base : String) (acc : List (TagKey × List (String × String × Node))) :
    List (String × Node) → Except String (List (TagKey × List (String × String × Node)))
  | [] => .ok acc
  | (path, meths) :: rest => do
    let ms ← meths.items
    let acc1 ← methodsLoop base path acc ms
    collectOps base acc1 rest

/-- All operations of one tag group, threading extras and registries. -/
def processOps (spec allParams : Node) :
    List (String × String × Node) → Extras → GenState →
    Except String (List String × Extras × GenState)
  | [], e, st => .ok ([], e, st)
  | (path, method, op) :: rest, e, st => do
    let (ls, e1, s1) ← processOp spec allParams path method op e st
    let (ls2, e2, s2) ← processOps spec allParams rest e1 s1
    .ok (ls ++ ls2, e2, s2)

/-- One service block per tag group: `service <SanitizedTag>Service`. -/
def buildServices (spec allParams : Node) :
    List (TagKey × List (String × String × Node)) → Extras → GenState →
    Except String (List String × Extras × GenState)
  | [], e, st => .ok ([], e, st)
  | (key, ops) :: rest, e, st => do
    let tag ← match key with
      | .s v => pure v
      | _ => Except.error "TypeError: re.sub expects str"
    let svc := sanitize_tag tag
    let (opLines, e1, s1) ← processOps spec allParams ops e st
    let block := joinLines (("service " ++ svc ++ "Service \x7b") :: opLines ++ ["\x7d"])
    let (blocks, e2, s2) ← buildServices spec allParams rest e1 s1
    .ok (block :: blocks, e2, s2)

/-- `generate_services`: resolve the parameter catalogue, group the path map
by tag, and emit services plus the extras registry. -/
def generate_services (spec : Node) (base : String) (st : GenState) :
    Except String (List String × Extras × GenState) := do
  let comps ← spec.getD "components" (.obj [])
  let ap0 ← comps.getD "parameters" (.obj [])
  let allParams := if ap0.truthy then ap0 else Node.obj []
  let pathsNode ← spec.getD "paths" (.obj [])
  let paths ← pathsNode.items
  let tagMap ← collectOps base [] paths
  buildServices spec allParams tagMap Extras.empty st

/-- Fixed artifact header: syntax, package, well-known imports, the shared
`Empty` message. -/
def headerLines (pkg : String) : List String :=
  [ "syntax = \"proto3\";",
    "package " ++ pkg ++ ";",
    "import \"google/protobuf/empty.proto\";",
    "import \"google/protobuf/struct.proto\";",
    "import \"google/api/http.proto\";",
    "import \"google/api/annotations.proto\";",
    "",
    "message Empty \x7b\x7d",
    "" ]

/-- `block.split("\n", 1)[0]`. -/
def first_line (b : String) : String :=
  match splitChar '\n' b with
  | [] => ""
  | l :: _ => l

/-- Python `str.split()` on space-separated words. -/
def splitWords (s : String) : List String :=
  (splitChar ' ' s).filter (fun w => !w.isEmpty)

/-- Name in a `message N …` or `enum N …` first line: `first.split()[1]`
(total here; generated declaration lines always carry a name). -/
def declNameOf (first : String) : String := (splitWords first).getD 1 ""

def isDeclLine (first : String) : Bool :=
  "message ".data.isPrefixOf first.data || "enum ".data.isPrefixOf first.data

/-- Final dedup pass: drop any block whose first line declares an
already-seen message/enum name, first write wins. -/
def dedupBlocks : List String → List String → List String
  | [], _ => []
  | b :: rest, seen =>
    if isDeclLine (first_line b) then
      if declNameOf (first_line b) ∈ seen then dedupBlocks rest seen
      else b :: dedupBlocks rest (declNameOf (first_line b) :: seen)
    else b :: dedupBlocks rest seen

/-- Assembled, deduplicated block list in the fixed order: schema blocks,
nested enum blocks, extras in registration order, services.  The run starts
from cleared registries. -/
def protoBlocks (spec : Node) (base : String) : Except String (List String × GenState) := do
  let (schemas, st1) ← generate_schema_messages spec initState
  let (services, extras, st2) ← generate_services spec base st1
  let all_blocks := schemas ++ st2.nested_enum_defs ++ extras.entries.map Prod.snd ++ services
  return (dedupBlocks all_blocks [], st2)

def generate_protoCore (spec : Node) (pkg base : String) :
    Except String (String × GenState) := do
  let (unique, st2) ← protoBlocks spec base
  return (joinLines (headerLines pkg ++ unique), st2)

/-- `generate_proto` with the ambient module globals made explicit: the
incoming registry state is discarded by the clearing calls at the top of the
function and the final registry state is returned alongside the text. -/
def generate_protoG (g : GenState) (spec : Node) (pkg base : String) :
    Except String String × GenState :=
  let _ := g
  match generate_protoCore spec pkg base with
  | .ok (s, st) => (.ok s, st)
  | .error e => (.error e, initState)

/-- `generate_proto`: the compiled artifact, or the raised error (in which
case `main` writes nothing). -/
def generate_proto (spec : Node) (pkg base : String) : Except String String :=
  (generate_protoG initState spec pkg base).1

/-! Basic lemmas about the embedding. -/

theorem ok_bind {α β : Type} (a : α) (f : α → Except String β) :
    (Except.ok a >>= f : Except String β) = f a := rfl

theorem error_bind {α β : Type} (e : String) (f : α → Except String β) :
    (Except.error e >>= f : Except String β) = Except.error e := rfl

theorem char_toNat_ofNat (n : Nat) (h : n.isValidChar) : (Char.ofNat n).toNat = n := by
  simp [Char.ofNat, h, Char.ofNatAux, Char.toNat, UInt32.toNat]

/-- `upChar` never produces the lowercase letter `r`: a lowercase input moves
into the uppercase range and any other input returning `r` would itself be
lowercase. -/
theorem upChar_ne_r (c : Char) : upChar c ≠ 'r' := by
  intro h
  unfold upChar at h
  split at h
  · next hc =>
    have h2 : (Char.ofNat (c.toNat - 32)).toNat = 114 := by rw [h]; rfl
    have hz : c ≤ 'z' := by
      rcases Bool.and_eq_true _ _ |>.mp hc with ⟨_, h4⟩
      exact decide_eq_true_eq.mp h4
    have hzn : c.toNat ≤ 122 := by
      simpa [Char.le_def, UInt32.le_def] using hz
    have hvalid : (c.toNat - 32).isValidChar := by
      left; omega
    rw [char_toNat_ofNat _ hvalid] at h2
    omega
  · next hc =>
    subst h
    simp at hc

/-- Every run the splitter emits is nonempty. -/
theorem runsAux_ne_nil (cs : List Char) :
    ∀ acc r, r ∈ runsAux cs acc → r ≠ [] := by
  induction cs with
  | nil =>
    intro acc r hr
    unfold runsAux at hr
    split at hr
    · simp at hr
    · next hne =>
      simp at hr
      subst hr
      simp only [ne_eq, List.reverse_eq_nil_iff]
      intro hacc
      simp [hacc] at hne
  | cons c cs ih =>
    intro acc r hr
    unfold runsAux at hr
    split at hr
    · exact ih _ _ hr
    · split at hr
      · exact ih _ _ hr
      · next h1 h2 =>
        rcases List.mem_cons.mp hr with h | h
        · subst h
          simp only [ne_eq, List.reverse_eq_nil_iff]
          intro hacc
          exact h2 (by simp [hacc])
        · exact ih _ _ h

/-- The PascalCase conversion is empty or begins with an uppercased
character. -/
theorem to_camel_data (s : String) :
    (to_camel s).data = [] ∨ ∃ c t, (to_camel s).data = upChar c :: t := by
  unfold to_camel
  cases hr : runsAux s.data [] with
  | nil => left; simp
  | cons r rs =>
    have hne : r ≠ [] := runsAux_ne_nil s.data [] r (by rw [hr]; exact List.mem_cons_self r rs)
    cases r with
    | nil => exact absurd rfl hne
    | cons c cs =>
      right
      exact ⟨c, cs ++ (rs.map capFirst).flatten, by simp [capFirst]⟩

/-- The field produced for one property carries exactly the tag handed in. -/
theorem genField_tag (p : String) (v : Node) (idx : Nat) (st : GenState)
    (f : Field) (st' : GenState) (h : genField p v idx st = .ok (f, st')) :
    f.tag = idx := by
  unfold genField at h
  cases hc : genFieldCore p v st with
  | error e => rw [hc] at h; cases h
  | ok r =>
    obtain ⟨⟨ft, nm⟩, s1⟩ := r
    rw [hc] at h
    cases h
    rfl

/-- Tags of the property loop form the dense range starting at the initial
counter. -/
theorem genFields_tags (props : List (String × Node)) :
    ∀ idx st fs st', genFields props idx st = .ok (fs, st') →
      fs.map Field.tag = List.range' idx fs.length := by
  induction props with
  | nil =>
    intro idx st fs st' h
    cases h
    rfl
  | cons pv rest ih =>
    intro idx st fs st' h
    obtain ⟨p, v⟩ := pv
    unfold genFields at h
    cases hf : genField p v idx st with
    | error e => rw [hf] at h; cases h
    | ok r1 =>
      obtain ⟨f, st1⟩ := r1
      rw [hf] at h
      simp only [ok_bind] at h
      cases hrest : genFields rest (idx + 1) st1 with
      | error e => rw [hrest] at h; cases h
      | ok r2 =>
        obtain ⟨fs2, st2⟩ := r2
        rw [hrest] at h
        cases h
        have htag := genField_tag p v idx st f st1 hf
        have htail := ih (idx + 1) st1 fs2 st2 hrest
        simp [htag, htail, List.range'_succ]

/-- Tags of the parameter-message loop form the dense range starting at the
initial counter. -/
theorem paramFields_tags (ps : List Node) :
    ∀ idx fs, paramFields ps idx = .ok fs →
      fs.map Field.tag = List.range' idx fs.length := by
  induction ps with
  | nil =>
    intro idx fs h
    cases h
    rfl
  | cons p rest ih =>
    intro idx fs h
    unfold paramFields at h
    cases hc : paramFieldCore p with
    | error e => rw [hc] at h; cases h
    | ok r =>
      obtain ⟨ft, nm⟩ := r
      rw [hc] at h
      simp only [ok_bind] at h
      cases hrest : paramFields rest (idx + 1) with
      | error e => rw [hrest] at h; cases h
      | ok fs2 =>
        rw [hrest] at h
        cases h
        have htail := ih (idx + 1) fs2 hrest
        simp [htail, List.range'_succ]

/-- Tags of the composite-request parameter loop form the dense range
starting at the initial counter. -/
theorem compositeParamFields_tags (ps : List Node) :
    ∀ idx fs, compositeParamFields ps idx = .ok fs →
      fs.map Field.tag = List.range' idx fs.length := by
  induction ps with
  | nil =>
    intro idx fs h
    cases h
    rfl
  | cons p rest ih =>
    intro idx fs h
    unfold compositeParamFields at h
    cases hc : compositeParamCore p with
    | error e => rw [hc] at h; cases h
    | ok r =>
      obtain ⟨ft, nm⟩ := r
      rw [hc] at h
      simp only [ok_bind] at h
      cases hrest : compositeParamFields rest (idx + 1) with
      | error e => rw [hrest] at h; cases h
      | ok fs2 =>
        rw [hrest] at h
        cases h
        have htail := ih (idx + 1) fs2 hrest
        simp [htail, List.range'_succ]

/-- Tags of the declared enum literals form the dense range starting at the
initial counter. -/
theorem enumMembers_tags (vals : List Node) :
    ∀ idx ms, enumMembers vals idx = .ok ms →
      ms.map EnumMember.tag = List.range' idx ms.length := by
  induction vals with
  | nil =>
    intro idx ms h
    cases h
    rfl
  | cons v rest ih =>
    intro idx ms h
    unfold enumMembers at h
    cases hc : enumIdent v with
    | error e => rw [hc] at h; cases h
    | ok id =>
      rw [hc] at h
      simp only [ok_bind] at h
      cases hrest : enumMembers rest (idx + 1) with
      | error e => rw [hrest] at h; cases h
      | ok ms2 =>
        rw [hrest] at h
        cases h
        have htail := ih (idx + 1) ms2 hrest
        simp [htail, List.range'_succ]

/-- Field tags of a message are dense from 1. -/
def denseFrom1 (m : MessageDef) : Prop :=
  m.fields.map Field.tag = List.range' 1 m.fields.length

/-- Any message built by the schema synthesizer has dense tags from 1. -/
theorem generate_message_dense (name : String) (schema spec : Node) (st : GenState)
    (m : MessageDef) (st' : GenState)
    (h : generate_message_from_schema name schema spec st = .ok (m, st')) :
    denseFrom1 m := by
  unfold generate_message_from_schema at h
  cases hd : derefTop schema spec with
  | error e => rw [hd] at h; cases h
  | ok schema2 =>
    rw [hd] at h
    simp only [ok_bind] at h
    cases hp : propsOf schema2 with
    | error e => rw [hp] at h; cases h
    | ok props =>
      rw [hp] at h
      simp only [ok_bind] at h
      cases hg : genFields props 1 st with
      | error e => rw [hg] at h; cases h
      | ok r =>
        obtain ⟨fs, st2⟩ := r
        rw [hg] at h
        cases h
        exact genFields_tags props 1 st fs st2 hg

/-- Any parameter-only request message has dense tags from 1. -/
theorem generate_param_message_dense (name : String) (ps : List Node)
    (m : MessageDef) (h : generate_param_message name ps = .ok m) : denseFrom1 m := by
  unfold generate_param_message at h
  cases hp : paramFields ps 1 with
  | error e => rw [hp] at h; cases h
  | ok fs =>
    rw [hp] at h
    cases h
    exact paramFields_tags ps 1 fs hp

/-- Any composite request message (parameters plus trailing `body`) has dense
tags from 1. -/
theorem compositeRequestMessage_dense (rname rt : String) (ps : List Node)
    (m : MessageDef) (h : compositeRequestMessage rname rt ps = .ok m) : denseFrom1 m := by
  unfold compositeRequestMessage at h
  cases hp : compositeParamFields ps 1 with
  | error e => rw [hp] at h; cases h
  | ok pfs =>
    rw [hp] at h
    cases h
    have htags := compositeParamFields_tags ps 1 pfs hp
    unfold denseFrom1
    simp only [List.map_append, List.map_cons, List.map_nil, List.length_append,
      List.length_cons, List.length_nil, htags]
    rw [List.range'_concat]
    simp [Nat.add_comm]

/-- Names of the kept blocks whose first line declares a message or enum. -/
def keptDeclNames (blocks : List String) : List String :=
  (blocks.filter (fun b => isDeclLine (first_line b))).map (fun b => declNameOf (first_line b))

/-- The dedup pass emits each declared name at most once, and never a name it
was told is already seen. -/
theorem dedupBlocks_nodup (blocks : List String) :
    ∀ seen, (keptDeclNames (dedupBlocks blocks seen)).Nodup
      ∧ ∀ n ∈ keptDeclNames (dedupBlocks blocks seen), n ∉ seen := by
  induction blocks with
  | nil =>
    intro seen
    refine ⟨by simp [dedupBlocks, keptDeclNames], by simp [dedupBlocks, keptDeclNames]⟩
  | cons b rest ih =>
    intro seen
    unfold dedupBlocks
    cases hd : isDeclLine (first_line b) with
    | true =>
      rw [if_pos rfl]
      by_cases hm : declNameOf (first_line b) ∈ seen
      · rw [if_pos hm]
        exact ⟨(ih seen).1, fun n hn => (ih seen).2 n hn⟩
      · rw [if_neg hm]
        have hk : keptDeclNames (b :: dedupBlocks rest (declNameOf (first_line b) :: seen))
            = declNameOf (first_line b)
              :: keptDeclNames (dedupBlocks rest (declNameOf (first_line b) :: seen)) := by
          simp [keptDeclNames, hd]
        refine ⟨?_, ?_⟩
        · rw [hk]
          refine List.nodup_cons.mpr ⟨?_, (ih _).1⟩
          intro hmem
          exact absurd (List.mem_cons_self _ _) ((ih _).2 _ hmem)
        · intro n hn
          rw [hk] at hn
          rcases List.mem_cons.mp hn with h | h
          · subst h; exact hm
          · intro hseen
            exact (ih _).2 n h (List.mem_cons_of_mem _ hseen)
    | false =>
      rw [if_neg Bool.false_ne_true]
      have hk : keptDeclNames (b :: dedupBlocks rest seen)
          = keptDeclNames (dedupBlocks rest seen) := by
        simp [keptDeclNames, hd]
      rw [hk]
      exact ih seen

/-- Count of lines of the artifact declaring a message or enum of the given
name. -/
def declCount (out nm : String) : Nat :=
  ((splitChar '\n' out).filter (fun l => isDeclLine l && declNameOf l = nm)).length

/-- A PascalCased name is never the rendering `repeated T` of a bare
repeated type: its first character is uppercased. -/
theorem to_camel_not_repeated (s T : String) : to_camel s ≠ "repeated " ++ T := by
  intro h
  have hdata : (to_camel s).data = ("repeated " ++ T).data := by rw [h]
  rw [String.data_append] at hdata
  rcases to_camel_data s with he | ⟨c, t, hc⟩
  · rw [he] at hdata
    exact List.cons_ne_nil _ _ hdata.symm
  · rw [hc] at hdata
    have : upChar c = 'r' := by
      have := List.head_eq_of_cons_eq hdata
      simpa using this
    exact upChar_ne_r c this

/-- A PascalCased name with the `Response` suffix is never the rendering of a
bare repeated type either. -/
theorem camel_response_not_repeated (s T : String) :
    to_camel s ++ "Response" ≠ "repeated " ++ T := by
  intro h
  have hdata : (to_camel s ++ "Response").data = ("repeated " ++ T).data := by rw [h]
  rw [String.data_append, String.data_append] at hdata
  rcases to_camel_data s with he | ⟨c, t, hc⟩
  · rw [he] at hdata
    simp only [List.nil_append] at hdata
    have : 'R' = 'r' := List.head_eq_of_cons_eq hdata
    exact absurd this (by decide)
  · rw [hc] at hdata
    simp only [List.cons_append] at hdata
    have : upChar c = 'r' := List.head_eq_of_cons_eq hdata
    exact upChar_ne_r c this

theorem responseTypeOf_shapes (spec : Node) (normId : String) (success : Node)
    (t : String) (i : Option Node) (h : responseTypeOf spec normId success = .ok (t, i)) :
    t = "Empty" ∨ t = "google.protobuf.Struct"
      ∨ (∃ s, t = to_camel s) ∨ t = to_camel normId ++ "Response" := by
  unfold responseTypeOf at h
  cases hk : success.hasKey "$ref" with
  | error e => rw [hk] at h; cases h
  | ok b =>
    rw [hk] at h
    simp only [ok_bind] at h
    cases b with
    | true =>
      simp only [if_pos rfl] at h
      cases hs : subscript success "$ref" with
      | error e => rw [hs] at h; cases h
      | ok v =>
        rw [hs] at h
        simp only [ok_bind] at h
        cases he : expectStr v with
        | error e => rw [he] at h; cases h
        | ok ref =>
          rw [he] at h
          simp only [ok_bind] at h
          cases hr : resolve_ref ref spec with
          | error e => rw [hr] at h; cases h
          | ok resolved =>
            rw [hr] at h
            simp only [ok_bind] at h
            cases hf : is_freeform_object resolved with
            | true =>
              rw [hf] at h
              simp only [if_pos rfl] at h
              cases h
              right; left; rfl
            | false =>
              rw [hf] at h
              simp only [Bool.false_eq_true, if_false] at h
              cases h
              right; right; left
              exact ⟨normalize_operation_id (last_segment ref), rfl⟩
    | false =>
      simp only [Bool.false_eq_true, if_false] at h
      cases hc : success.getD "content" (.obj []) with
      | error e => rw [hc] at h; cases h
      | ok content =>
        rw [hc] at h
        simp only [ok_bind] at h
        cases hi : content.items with
        | error e => rw [hi] at h; cases h
        | ok its =>
          rw [hi] at h
          simp only [ok_bind] at h
          cases hj : find_json_schema its with
          | error e => rw [hj] at h; cases h
          | ok so =>
            rw [hj] at h
            simp only [ok_bind] at h
            cases so with
            | none => cases h; left; rfl
            | some schema =>
              simp only [] at h
              cases ht : schema.truthy with
              | false =>
                rw [ht] at h
                simp only [Bool.not_false, if_pos rfl] at h
                cases h
                left; rfl
              | true =>
                rw [ht] at h
                simp only [Bool.not_true, Bool.false_eq_true, if_false] at h
                cases hg : schema.get? "type" with
                | error e => rw [hg] at h; cases h
                | ok tOpt =>
                  rw [hg] at h
                  simp only [ok_bind] at h
                  cases h
                  right; right; right; rfl

/-- A string whose first character is not `r` is never `"repeated " ++ T`. -/
theorem ne_repeated_of_head {s : String} (c : Char) (rest : List Char)
    (hs : s.data = c :: rest) (hc : c ≠ 'r') (T : String) : s ≠ "repeated " ++ T := by
  intro h
  rw [h, String.data_append] at hs
  have hrep : ("repeated ").data ++ T.data = 'r' :: ("epeated ".data ++ T.data) := rfl
  rw [hrep] at hs
  exact hc (List.head_eq_of_cons_eq hs).symm

/-- Every response type the extractor returns has one of four shapes. -/
theorem extract_response_shapes (op spec : Node) (t : String) (i : Option Node)
    (h : extract_response_schema op spec = .ok (t, i)) :
    t = "Empty" ∨ t = "google.protobuf.Struct" ∨ (∃ s, t = to_camel s)
      ∨ ∃ raw, t = to_camel (normalize_operation_id raw) ++ "Response" := by
  unfold extract_response_schema at h
  cases hid : op.get? "operationId" with
  | error e => rw [hid] at h; cases h
  | ok io =>
    rw [hid] at h
    simp only [ok_bind] at h
    match io with
    | none => cases h
    | some (.obj _) | some (.arr _) | some (.int _) | some (.bool _) | some .null => cases h
    | some (.str raw) =>
    simp only [] at h
    cases hr : op.getD "responses" (.obj []) with
    | error e => rw [hr] at h; cases h
    | ok responses =>
      rw [hr] at h
      simp only [ok_bind] at h
      cases hit : responses.items with
      | error e => rw [hit] at h; cases h
      | ok respItems =>
        rw [hit] at h
        simp only [ok_bind] at h
        cases hdg : responses.get? "default" with
        | error e => rw [hdg] at h; cases h
        | ok defaultOpt =>
          rw [hdg] at h
          simp only [ok_bind] at h
          cases hso : (if optTruthy (firstSuccess respItems) then firstSuccess respItems else defaultOpt) with
          | none =>
            rw [hso] at h
            cases h
            left; rfl
          | some success =>
            rw [hso] at h
            simp only [] at h
            cases ht : success.truthy with
            | false =>
              rw [ht] at h
              simp only [Bool.not_false, if_pos rfl] at h
              cases h
              left; rfl
            | true =>
              rw [ht] at h
              simp only [Bool.not_true, Bool.false_eq_true, if_false] at h
              rcases responseTypeOf_shapes spec (normalize_operation_id raw) success t i h with
                h1 | h2 | h3 | h4
              · exact Or.inl h1
              · exact Or.inr (Or.inl h2)
              · exact Or.inr (Or.inr (Or.inl h3))
              · exact Or.inr (Or.inr (Or.inr ⟨raw, h4⟩))

theorem extract_response_not_bare (op spec : Node) (t : String) (i : Option Node)
    (h : extract_response_schema op spec = .ok (t, i)) (T : String) :
    t ≠ "repeated " ++ T := by
  rcases extract_response_shapes op spec t i h with h1 | h1 | ⟨s, h1⟩ | ⟨raw, h1⟩
  · subst h1; exact ne_repeated_of_head 'E' "mpty".data rfl (by decide) T
  · subst h1; exact ne_repeated_of_head 'g' "oogle.protobuf.Struct".data rfl (by decide) T
  · subst h1; exact to_camel_not_repeated s T
  · subst h1; exact camel_response_not_repeated _ T

theorem responseTypeOf_inline (spec : Node) (normId : String) (success : Node)
    (t : String) (inl : Node) (h : responseTypeOf spec normId success = .ok (t, some inl)) :
    t = to_camel normId ++ "Response" ∧ inl.truthy = true := by
  unfold responseTypeOf at h
  cases hk : success.hasKey "$ref" with
  | error e => rw [hk] at h; cases h
  | ok b =>
    rw [hk] at h
    simp only [ok_bind] at h
    cases b with
    | true =>
      simp only [if_pos rfl] at h
      cases hs : subscript success "$ref" with
      | error e => rw [hs] at h; cases h
      | ok v =>
        rw [hs] at h
        simp only [ok_bind] at h
        cases he : expectStr v with
        | error e => rw [he] at h; cases h
        | ok ref =>
          rw [he] at h
          simp only [ok_bind] at h
          cases hr : resolve_ref ref spec with
          | error e => rw [hr] at h; cases h
          | ok resolved =>
            rw [hr] at h
            simp only [ok_bind] at h
            cases hf : is_freeform_object resolved with
            | true => rw [hf] at h; simp only [if_pos rfl] at h; cases h
            | false =>
              rw [hf] at h
              simp only [Bool.false_eq_true, if_false] at h
              cases h
    | false =>
      simp only [Bool.false_eq_true, if_false] at h
      cases hc : success.getD "content" (.obj []) with
      | error e => rw [hc] at h; cases h
      | ok content =>
        rw [hc] at h
        simp only [ok_bind] at h
        cases hi : content.items with
        | error e => rw [hi] at h; cases h
        | ok its =>
          rw [hi] at h
          simp only [ok_bind] at h
          cases hj : find_json_schema its with
          | error e => rw [hj] at h; cases h
          | ok so =>
            rw [hj] at h
            simp only [ok_bind] at h
            cases so with
            | none => cases h
            | some schema =>
              simp only [] at h
              cases ht : schema.truthy with
              | false =>
                rw [ht] at h
                simp only [Bool.not_false, if_pos rfl] at h
                cases h
              | true =>
                rw [ht] at h
                simp only [Bool.not_true, Bool.false_eq_true, if_false] at h
                cases hg : schema.get? "type" with
                | error e => rw [hg] at h; cases h
                | ok tOpt =>
                  rw [hg] at h
                  simp only [ok_bind] at h
                  cases h
                  exact ⟨rfl, ht⟩

theorem processOp_eq (spec allParams : Node) (path method : String) (op : Node)
    (e : Extras) (st : GenState) (rawId : String) (psN : Node) (ps0 ps1 inp : List Node)
    (rq : String) (e1 : Extras) (s1 : GenState) (rs : String) (e2 : Extras) (s2 : GenState)
    (h1 : opIdString op = .ok rawId)
    (h2 : op.getD "parameters" (.arr []) = .ok psN)
    (h3 : iterOf psN = .ok ps0)
    (h4 : resolveParams allParams ps0 = .ok ps1)
    (h5 : filterInLoc ps1 = .ok inp)
    (h6 : resolveRequest spec (normalize_operation_id rawId) op inp e st = .ok (rq, e1, s1))
    (h7 : resolveResponse spec op e1 s1 = .ok (rs, e2, s2)) :
    processOp spec allParams path method op e st
      = .ok (rpcBlockLines rawId rq rs method path, e2, s2) := by
  unfold processOp
  rw [h1]; simp only [ok_bind]
  rw [h2]; simp only [ok_bind]
  rw [h3]; simp only [ok_bind]
  rw [h4]; simp only [ok_bind]
  rw [h5]; simp only [ok_bind]
  rw [h6]; simp only [ok_bind]
  rw [h7]; simp only [ok_bind]
  rfl

/-- An inline array response synthesizes the `repeated` wrapper under the
response-type name and returns that name. -/
theorem resolveResponse_array (spec op : Node) (extras : Extras) (st : GenState)
    (rt : String) (inl itm : Node) (ity : String)
    (hx : extract_response_schema op spec = .ok (rt, some inl))
    (hty : inl.get? "type" = .ok (some (.str "array")))
    (hit : inl.getD "items" (.obj []) = .ok itm)
    (hai : arrayItemType itm = .ok ity) :
    resolveResponse spec op extras st
      = .ok (rt, extras.setdefault rt (renderMessage (arrayWrapper rt ity)), st) := by
  unfold resolveResponse
  rw [hx]; simp only [ok_bind]
  rw [hty]; simp only [ok_bind]
  simp only [String.reduceBEq, if_pos rfl]
  rw [hit]; simp only [ok_bind]
  rw [hai]; simp only [ok_bind]
  rfl

/-- A response with no inline schema passes its type through, synthesizing
nothing. -/
theorem resolveResponse_passthrough (spec op : Node) (extras : Extras) (st : GenState)
    (rt : String) (hx : extract_response_schema op spec = .ok (rt, none)) :
    resolveResponse spec op extras st = .ok (rt, extras, st) := by
  unfold resolveResponse
  rw [hx]; simp only [ok_bind]
  rfl

/-- A success response that is itself a reference to a non-freeform schema
resolves to the normalized referenced name with no inline schema. -/
theorem responseTypeOf_direct_ref (spec : Node) (normId : String) (success : Node)
    (refStr : String) (resolved : Node)
    (hk : success.hasKey "$ref" = .ok true)
    (hs : subscript success "$ref" = .ok (.str refStr))
    (hr : resolve_ref refStr spec = .ok resolved)
    (hf : is_freeform_object resolved = false) :
    responseTypeOf spec normId success
      = .ok (to_camel (normalize_operation_id (last_segment refStr)), none) := by
  unfold responseTypeOf
  rw [hk]; simp only [ok_bind, if_pos rfl]
  rw [hs]; simp only [ok_bind]
  simp only [expectStr, ok_bind]
  rw [hr]; simp only [ok_bind]
  rw [hf]
  simp only [Bool.false_eq_true, if_false]
  rfl

/-- A success response referencing a freeform schema resolves to the generic
structured-value type. -/
theorem responseTypeOf_ref_freeform (spec : Node) (normId : String) (success : Node)
    (refStr : String) (resolved : Node)
    (hk : success.hasKey "$ref" = .ok true)
    (hs : subscript success "$ref" = .ok (.str refStr))
    (hr : resolve_ref refStr spec = .ok resolved)
    (hf : is_freeform_object resolved = true) :
    responseTypeOf spec normId success = .ok ("google.protobuf.Struct", none) := by
  unfold responseTypeOf
  rw [hk]; simp only [ok_bind, if_pos rfl]
  rw [hs]; simp only [ok_bind]
  simp only [expectStr, ok_bind]
  rw [hr]; simp only [ok_bind]
  rw [hf]
  simp only [if_pos rfl]
  rfl

/-- The extractor reduces to `responseTypeOf` on the selected truthy
success response. -/
theorem extract_response_eq (op spec : Node) (raw : String) (responses : Node)
    (respItems : List (String × Node)) (defaultOpt : Option Node) (success : Node)
    (hid : op.get? "operationId" = .ok (some (.str raw)))
    (hr : op.getD "responses" (.obj []) = .ok responses)
    (hit : responses.items = .ok respItems)
    (hd : responses.get? "default" = .ok defaultOpt)
    (hsel : (if optTruthy (firstSuccess respItems) then firstSuccess respItems
              else defaultOpt) = some success)
    (ht : success.truthy = true) :
    extract_response_schema op spec
      = responseTypeOf spec (normalize_operation_id raw) success := by
  unfold extract_response_schema
  rw [hid]; simp only [ok_bind]
  rw [hr]; simp only [ok_bind]
  rw [hit]; simp only [ok_bind]
  rw [hd]; simp only [ok_bind]
  rw [hsel]
  simp only []
  rw [ht]
  simp only [Bool.not_true, Bool.false_eq_true, if_false]
  rfl

/-- The composite parameter loop yields one field per parameter. -/
theorem compositeParamFields_length (ps : List Node) :
    ∀ idx fs, compositeParamFields ps idx = .ok fs → fs.length = ps.length := by
  induction ps with
  | nil => intro idx fs h; cases h; rfl
  | cons p rest ih =>
    intro idx fs h
    unfold compositeParamFields at h
    cases hc : compositeParamCore p with
    | error e => rw [hc] at h; cases h
    | ok r =>
      obtain ⟨ft, nm⟩ := r
      rw [hc] at h
      simp only [ok_bind] at h
      cases hrest : compositeParamFields rest (idx + 1) with
      | error e => rw [hrest] at h; cases h
      | ok fs2 =>
        rw [hrest] at h
        cases h
        simp [ih (idx + 1) fs2 hrest]

/-- When an operation has a truthy body and kept in-location parameters, and
the composite name is still free, the resolver registers the composite
request and returns its name. -/
theorem resolveRequest_composite (spec : Node) (normId : String) (op : Node)
    (in_params : List Node) (extras : Extras) (st : GenState) (body : Node)
    (rt : String) (e1 : Extras) (s1 : GenState) (m : MessageDef)
    (hb : extract_body_schema op spec = .ok (some body))
    (htr : body.truthy = true)
    (hbt : resolveBodyType spec normId body extras st = .ok (rt, e1, s1))
    (hne : in_params.isEmpty = false)
    (hfresh : e1.containsName (to_camel normId ++ "Request") = false)
    (hm : compositeRequestMessage (to_camel normId ++ "Request") rt in_params = .ok m) :
    resolveRequest spec normId op in_params extras st
      = .ok (to_camel normId ++ "Request",
          e1.push (to_camel normId ++ "Request") (renderMessage m), s1) := by
  unfold resolveRequest
  rw [hb]; simp only [ok_bind]
  rw [htr]
  simp only [if_true]
  rw [hbt]; simp only [ok_bind]
  rw [hne]
  simp only [Bool.false_eq_true, if_false]
  rw [hfresh]
  simp only [Bool.false_eq_true, if_false]
  rw [hm]; simp only [ok_bind]
  rfl

/-- With only parameters and no body, the resolver registers the parameter
message (idempotently) and returns its name. -/
theorem resolveRequest_params_only (spec : Node) (normId : String) (op : Node)
    (in_params : List Node) (extras : Extras) (st : GenState) (m : MessageDef)
    (hb : extract_body_schema op spec = .ok none)
    (hne : in_params.isEmpty = false)
    (hm : generate_param_message (to_camel normId ++ "Request") in_params = .ok m) :
    resolveRequest spec normId op in_params extras st
      = .ok (to_camel normId ++ "Request",
          extras.setdefault (to_camel normId ++ "Request") (renderMessage m), st) := by
  unfold resolveRequest
  rw [hb]; simp only [ok_bind]
  rw [hne]
  simp only [Bool.false_eq_true, if_false]
  rw [hm]; simp only [ok_bind]
  rfl

/-- A referenced request body resolving to a freeform schema becomes the
generic structured-value type with no synthesis. -/
theorem resolveBodyType_ref (spec : Node) (normId : String) (l : List (String × Node))
    (refStr : String) (resolved : Node) (extras : Extras) (st : GenState)
    (hl : lookup l "$ref" = some (.str refStr))
    (hr : resolve_ref refStr spec = .ok resolved) :
    resolveBodyType spec normId (.obj l) extras st
      = .ok (if is_freeform_object resolved then "google.protobuf.Struct"
             else last_segment refStr, extras, st) := by
  unfold resolveBodyType
  dsimp only
  rw [hl]
  simp only [expectStr, ok_bind]
  rw [hr]; simp only [ok_bind]
  rfl

/-- An inline freeform body becomes the generic structured-value type with no
synthesis. -/
theorem resolveBodyType_inline_freeform (spec : Node) (normId : String)
    (l : List (String × Node)) (extras : Extras) (st : GenState)
    (hl : lookup l "$ref" = none)
    (hf : is_freeform_object (.obj l) = true) :
    resolveBodyType spec normId (.obj l) extras st
      = .ok ("google.protobuf.Struct", extras, st) := by
  unfold resolveBodyType
  dsimp only
  rw [hl, hf]
  simp only [if_pos rfl]
  rfl

/-- The catalogue walk emits nothing for a freeform object schema. -/
theorem schemasLoop_skips_freeform (spec : Node) (name : String) (schema : Node)
    (rest : List (String × Node)) (st : GenState)
    (he : isEnumSchema schema = false) (ha : isArraySchema schema = false)
    (hf : is_freeform_object schema = true) :
    schemasLoop spec ((name, schema) :: rest) st = schemasLoop spec rest st := by
  conv_lhs => unfold schemasLoop
  rw [he, ha, hf]
  simp

/-- A property that is a reference takes the reference's final segment as its
field type, with no freeform check and no substitution. -/
theorem genFieldCore_ref (prop : String) (l : List (String × Node)) (refStr : String)
    (st : GenState)
    (hen : getIsNotNone l "enum" = false)
    (hl : lookup l "$ref" = some (.str refStr)) :
    genFieldCore prop (.obj l) st
      = .ok ((.plain (last_segment refStr), safe_name prop), st) := by
  unfold genFieldCore
  dsimp only
  rw [hen]
  simp only [Bool.false_eq_true, if_false]
  rw [hl]
  simp only [Option.isSome_some, if_pos rfl, subscript, hl, expectStr, ok_bind]
  rfl

/-- Extracted inline response types carry the normalized `Response` name. -/
theorem extract_inline_name (op spec : Node) (t : String) (inl : Node) (raw : String)
    (hid : op.get? "operationId" = .ok (some (.str raw)))
    (h : extract_response_schema op spec = .ok (t, some inl)) :
    t = to_camel (normalize_operation_id raw) ++ "Response" := by
  unfold extract_response_schema at h
  rw [hid] at h
  simp only [ok_bind] at h
  cases hr : op.getD "responses" (.obj []) with
  | error e => rw [hr] at h; cases h
  | ok responses =>
    rw [hr] at h
    simp only [ok_bind] at h
    cases hit : responses.items with
    | error e => rw [hit] at h; cases h
    | ok respItems =>
      rw [hit] at h
      simp only [ok_bind] at h
      cases hdg : responses.get? "default" with
      | error e => rw [hdg] at h; cases h
      | ok defaultOpt =>
        rw [hdg] at h
        simp only [ok_bind] at h
        cases hso : (if optTruthy (firstSuccess respItems) then firstSuccess respItems
            else defaultOpt) with
        | none => rw [hso] at h; cases h
        | some success =>
          rw [hso] at h
          simp only [] at h
          cases ht : success.truthy with
          | false =>
            rw [ht] at h
            simp only [Bool.not_false, if_pos rfl] at h
            cases h
          | true =>
            rw [ht] at h
            simp only [Bool.not_true, Bool.false_eq_true, if_false] at h
            exact (responseTypeOf_inline spec (normalize_operation_id raw) success t inl h).1

/-- Members of a string-literal enum list pair each sanitized uppercased
literal with tags counted from the start index. -/
theorem enumMembers_strs (ls : List String) :
    ∀ idx, enumMembers (ls.map Node.str) idx
      = .ok ((ls.zip (List.range' idx ls.length)).map
          (fun p => ⟨pyUpper (safe_name p.1), p.2⟩)) := by
  induction ls with
  | nil => intro idx; rfl
  | cons x rest ih =>
    intro idx
    show enumMembers (Node.str x :: rest.map Node.str) idx = _
    unfold enumMembers
    simp only [enumIdent, ok_bind]
    rw [ih (idx + 1)]
    simp only [ok_bind]
    simp [List.range'_succ]

/-- A name already registered in the enum registry is never emitted again. -/
theorem generate_enum_dedup (name : String) (schema : Node) (st : GenState)
    (h : name ∈ st.enums_defined) :
    generate_enum name schema st = .ok (none, st) := by
  unfold generate_enum
  simp [h]
  rfl

/-- Every freshly emitted enum starts with the `_UNSPECIFIED` sentinel at 0
and numbers its members densely from 0. -/
theorem generate_enum_sentinel (name : String) (schema : Node) (st : GenState)
    (e : EnumDef) (st' : GenState)
    (h : generate_enum name schema st = .ok (some e, st')) :
    e.name = name
      ∧ e.members.head? = some ⟨pyUpper name ++ "_UNSPECIFIED", 0⟩
      ∧ e.members.map EnumMember.tag = List.range' 0 e.members.length := by
  unfold generate_enum at h
  by_cases hm : name ∈ st.enums_defined
  · simp only [hm, if_pos] at h
    cases h
  · simp only [hm, if_false] at h
    cases hg : schema.get? "enum" with
    | error e2 => rw [hg] at h; cases h
    | ok o =>
      rw [hg] at h
      simp only [ok_bind] at h
      have step : ∀ (vals : List Node),
          ((do
            let ms ← enumMembers vals 1
            pure (some (⟨name, ⟨pyUpper name ++ "_UNSPECIFIED", 0⟩ :: ms⟩ : EnumDef),
              { st with enums_defined := st.enums_defined ++ [name] }) :
            Except String (Option EnumDef × GenState)) = .ok (some e, st')) →
          e.name = name
            ∧ e.members.head? = some ⟨pyUpper name ++ "_UNSPECIFIED", 0⟩
            ∧ e.members.map EnumMember.tag = List.range' 0 e.members.length := by
        intro vals hv
        cases hms : enumMembers vals 1 with
        | error e2 => rw [hms] at hv; cases hv
        | ok ms =>
          rw [hms] at hv
          simp only [ok_bind] at hv
          cases hv
          refine ⟨rfl, rfl, ?_⟩
          have htags := enumMembers_tags vals 1 ms hms
          simp [htags, List.range'_succ]
      cases o with
      | none => exact step [] h
      | some v =>
        dsimp only at h
        cases hiter : iterOf v with
        | error e2 => rw [hiter] at h; cases h
        | ok vals =>
          rw [hiter] at h
          simp only [ok_bind] at h
          exact step vals h

/-- A fresh enum over string literals is exactly the sentinel plus the
uppercased sanitized literals tagged from 1. -/
theorem generate_enum_literals (name : String) (ls : List String) (st : GenState)
    (hm : name ∉ st.enums_defined) :
    generate_enum name (.obj [("enum", .arr (ls.map Node.str))]) st
      = .ok (some ⟨name, ⟨pyUpper name ++ "_UNSPECIFIED", 0⟩ ::
          (ls.zip (List.range' 1 ls.length)).map (fun p => ⟨pyUpper (safe_name p.1), p.2⟩)⟩,
          { st with enums_defined := st.enums_defined ++ [name] }) := by
  unfold generate_enum
  rw [if_neg hm]
  rw [show (Node.obj [("enum", Node.arr (ls.map Node.str))]).get? "enum"
      = .ok (some (.arr (ls.map Node.str))) from rfl]
  simp only [ok_bind]
  rw [show iterOf (.arr (ls.map Node.str)) = .ok (ls.map Node.str) from rfl]
  simp only [ok_bind]
  rw [enumMembers_strs ls 1]
  simp only [ok_bind]
  rfl

/-- Pointer walking along the failing test: the error a walk raises at its
first missing or unsubscriptable segment. -/
def walkError (n : Node) : List String → Option String
  | [] => none
  | k :: ks =>
    match n with
    | .obj l =>
      match lookup l k with
      | some v => walkError v ks
      | none => some ("KeyError: " ++ k)
    | _ => some "TypeError: subscript"

theorem walk_error (segs : List String) : ∀ (n : Node) (e : String),
    walkError n segs = some e → walk n segs = .error e := by
  induction segs with
  | nil => intro n e h; simp [walkError] at h
  | cons k ks ih =>
    intro n e h
    unfold walkError at h
    unfold walk
    cases n with
    | obj l =>
      dsimp only at h
      cases hl : lookup l k with
      | some v =>
        rw [hl] at h
        have hsub : subscript (.obj l) k = .ok v := by simp [subscript, hl]
        rw [hsub]
        simp only [ok_bind]
        exact ih v e h
      | none =>
        rw [hl] at h
        cases h
        have hsub : subscript (.obj l) k = .error ("KeyError: " ++ k) := by
          simp [subscript, hl]
        rw [hsub]
        rfl
    | arr l => dsimp only at h; cases h; rfl
    | str v => dsimp only at h; cases h; rfl
    | int v => dsimp only at h; cases h; rfl
    | bool v => dsimp only at h; cases h; rfl
    | null => dsimp only at h; cases h; rfl

/-! Concrete example documents. -/

/-- Schema `Order { id: string, total: number }`. -/
def orderSchema : Node :=
  .obj [("type", .str "object"),
        ("properties", .obj [("id", .obj [("type", .str "string")]),
                             ("total", .obj [("type", .str "number")])])]

def idPathParam : Node :=
  .obj [("name", .str "id"), ("in", .str "path"),
        ("schema", .obj [("type", .str "string")])]

/-- `getOrderById` whose 200 response is itself a reference to `Order`. -/
def opGetOrderById : Node :=
  .obj [("operationId", .str "getOrderById"),
        ("parameters", .arr [idPathParam]),
        ("responses", .obj [("200", .obj [("$ref", .str "#/components/schemas/Order")])])]

def docDirectRef : Node :=
  .obj [("components", .obj [("schemas", .obj [("Order", orderSchema)])]),
        ("paths", .obj [("/orders/\x7bid\x7d", .obj [("get", opGetOrderById)])])]

/-- `getOrderById` whose 200 response carries the `Order` reference under
`content/application-json/schema`, the common OpenAPI form. -/
def opGetOrderByIdNested : Node :=
  .obj [("operationId", .str "getOrderById"),
        ("parameters", .arr [idPathParam]),
        ("responses", .obj [("200", .obj [("description", .str "ok"),
          ("content", .obj [("application/json", .obj [("schema",
            .obj [("$ref", .str "#/components/schemas/Order")])])])])])]

def docNestedRef : Node :=
  .obj [("components", .obj [("schemas", .obj [("Order", orderSchema)])]),
        ("paths", .obj [("/orders/\x7bid\x7d", .obj [("get", opGetOrderByIdNested)])])]

/-- `updateOrder` with a path parameter and a referenced body. -/
def orderUpdateSchema : Node :=
  .obj [("type", .str "object"),
        ("properties", .obj [("status", .obj [("type", .str "string")])])]

def orderIdPathParam : Node :=
  .obj [("name", .str "orderId"), ("in", .str "path"),
        ("schema", .obj [("type", .str "string")])]

def opUpdateOrder : Node :=
  .obj [("operationId", .str "updateOrder"),
        ("parameters", .arr [orderIdPathParam]),
        ("requestBody", .obj [("content", .obj [("application/json",
          .obj [("schema", .obj [("$ref", .str "#/components/schemas/OrderUpdate")])])])]),
        ("responses", .obj [("200", .obj [("$ref", .str "#/components/schemas/Order")])])]

def docUpdate : Node :=
  .obj [("components", .obj [("schemas", .obj [("Order", orderSchema),
                                               ("OrderUpdate", orderUpdateSchema)])]),
        ("paths", .obj [("/orders/\x7borderId\x7d", .obj [("put", opUpdateOrder)])])]

/-- `listOrders` with an inline array response of referenced items. -/
def opListOrders : Node :=
  .obj [("operationId", .str "listOrders"),
        ("responses", .obj [("200", .obj [("description", .str "ok"),
          ("content", .obj [("application/json", .obj [("schema",
            .obj [("type", .str "array"),
                  ("items", .obj [("$ref", .str "#/components/schemas/Order")])])])])])])]

def docList : Node :=
  .obj [("components", .obj [("schemas", .obj [("Order", orderSchema)])]),
        ("paths", .obj [("/orders", .obj [("get", opListOrders)])])]

/-- A freeform schema and a schema whose field references it. -/
def freeSchema : Node := .obj [("type", .str "object")]

def holderSchema : Node :=
  .obj [("type", .str "object"),
        ("properties", .obj [("x", .obj [("$ref", .str "#/components/schemas/Free")])])]

def docFreeform : Node :=
  .obj [("components", .obj [("schemas", .obj [("Free", freeSchema),
                                               ("Holder", holderSchema)])]),
        ("paths", .obj [])]

/-- Two operations referencing the same `Order` schema. -/
def opGetOrderB : Node :=
  .obj [("operationId", .str "getOrderB"),
        ("parameters", .arr [idPathParam]),
        ("responses", .obj [("200", .obj [("$ref", .str "#/components/schemas/Order")])])]

def docTwoOps : Node :=
  .obj [("components", .obj [("schemas", .obj [("Order", orderSchema)])]),
        ("paths", .obj [("/orders/\x7bid\x7d", .obj [("get", opGetOrderById)]),
                        ("/ordersB/\x7bid\x7d", .obj [("get", opGetOrderB)])])]

/-- A user schema named `Empty`, colliding with the header's built-in
`message Empty {}`. -/
def docEmptyCollision : Node :=
  .obj [("components", .obj [("schemas", .obj [("Empty",
          .obj [("type", .str "object"),
                ("properties", .obj [("x", .obj [("type", .str "string")])])])])]),
        ("paths", .obj [])]

/-- A request body referencing a pointer with an absent segment. -/
def opDangling : Node :=
  .obj [("operationId", .str "createOrder"),
        ("requestBody", .obj [("$ref", .str "#/components/requestBodies/Missing")]),
        ("responses", .obj [("200", .obj [("$ref", .str "#/components/schemas/Order")])])]

def docDangling : Node :=
  .obj [("components", .obj [("schemas", .obj [("Order", orderSchema)])]),
        ("paths", .obj [("/orders", .obj [("post", opDangling)])])]

/-- `retrieveOrder`: a `retrieve`-prefixed operation with parameter, inline
body and inline array response, exercising all three wrapper names. -/
def opRetrieveOrder : Node :=
  .obj [("operationId", .str "retrieveOrder"),
        ("parameters", .arr [orderIdPathParam]),
        ("requestBody", .obj [("content", .obj [("application/json",
          .obj [("schema", .obj [("type", .str "object"),
            ("properties", .obj [("note", .obj [("type", .str "string")])])])])])]),
        ("responses", .obj [("200", .obj [("description", .str "ok"),
          ("content", .obj [("application/json", .obj [("schema",
            .obj [("type", .str "array"),
                  ("items", .obj [("$ref", .str "#/components/schemas/Order")])])])])])])]

def docRetrieve : Node :=
  .obj [("components", .obj [("schemas", .obj [("Order", orderSchema)])]),
        ("paths", .obj [("/orders/\x7borderId\x7d", .obj [("post", opRetrieveOrder)])])]

/-- An enum schema and a schema with an inline property enum. -/
def statusEnumSchema : Node :=
  .obj [("type", .str "string"), ("enum", .arr [.str "new", .str "shipped"])]

def docEnums : Node :=
  .obj [("components", .obj [("schemas", .obj [("Status", statusEnumSchema),
          ("Parcel", .obj [("type", .str "object"),
            ("properties", .obj [("state", .obj [("type", .str "string"),
              ("enum", .arr [.str "open", .str "closed"])])])])])]),
        ("paths", .obj [])]

/-- The type the response resolver returns is exactly the extracted response
type. -/
theorem resolveResponse_type (spec op : Node) (extras : Extras) (st : GenState)
    (t : String) (e' : Extras) (st' : GenState)
    (h : resolveResponse spec op extras st = .ok (t, e', st')) :
    ∃ i, extract_response_schema op spec = .ok (t, i) := by
  unfold resolveResponse at h
  cases hx : extract_response_schema op spec with
  | error e => rw [hx] at h; cases h
  | ok r =>
    obtain ⟨rt, i⟩ := r
    rw [hx] at h
    simp only [ok_bind] at h
    cases i with
    | none => cases h; exact ⟨none, rfl⟩
    | some inl =>
      dsimp only at h
      cases hg : inl.get? "type" with
      | error e => rw [hg] at h; cases h
      | ok tOpt =>
        rw [hg] at h
        simp only [ok_bind] at h
        split at h
        · cases hit : inl.getD "items" (.obj []) with
          | error e => rw [hit] at h; cases h
          | ok itm =>
            rw [hit] at h
            simp only [ok_bind] at h
            cases hai : arrayItemType itm with
            | error e => rw [hai] at h; cases h
            | ok ity =>
              rw [hai] at h
              simp only [ok_bind] at h
              cases h
              exact ⟨some inl, rfl⟩
        · cases hm : generate_message_from_schema rt inl spec st with
          | error e => rw [hm] at h; cases h
          | ok r2 =>
            obtain ⟨msg, st2⟩ := r2
            rw [hm] at h
            simp only [ok_bind] at h
            cases h
            exact ⟨some inl, rfl⟩

/-! Observation helpers for concrete artifacts. -/

/-- Declaration count of a name inside a successfully compiled artifact. -/
def outputDeclCount (r : Except String String) (nm : String) : Option Nat :=
  match r with
  | .ok s => some (declCount s nm)
  | .error _ => none

/-- Line membership inside a successfully compiled artifact. -/
def outputHasLine (r : Except String String) (l : String) : Bool :=
  match r with
  | .ok s => (splitChar '\n' s).contains l
  | .error _ => false

def expectedDirectRef : String :=
  "syntax = \"proto3\";\npackage api;\nimport \"google/protobuf/empty.proto\";\nimport \"google/protobuf/struct.proto\";\nimport \"google/api/http.proto\";\nimport \"google/api/annotations.proto\";\n\nmessage Empty \x7b\x7d\n\nmessage Order \x7b\n  string id = 1;\n  double total = 2;\n\x7d\nmessage GetOrderByIdRequest \x7b\n  string id = 1;\n\x7d\nservice DefaultService \x7b\n  rpc getOrderById (GetOrderByIdRequest) returns (Order) \x7b\n    option (google.api.http) = \x7b\n      get: \"/orders/\x7bid\x7d\"\n      body: \"*\"\n    \x7d;\n  \x7d\n\x7d"

def expectedRetrieve : String :=
  "syntax = \"proto3\";\npackage api;\nimport \"google/protobuf/empty.proto\";\nimport \"google/protobuf/struct.proto\";\nimport \"google/api/http.proto\";\nimport \"google/api/annotations.proto\";\n\nmessage Empty \x7b\x7d\n\nmessage Order \x7b\n  string id = 1;\n  double total = 2;\n\x7d\nmessage GetOrderBody \x7b\n  string note = 1;\n\x7d\nmessage GetOrderRequest \x7b\n  string orderId = 1;\n  GetOrderBody body = 2;\n\x7d\nmessage GetOrderResponse \x7b\n  repeated Order items = 1;\n\x7d\nservice DefaultService \x7b\n  rpc retrieveOrder (GetOrderRequest) returns (GetOrderResponse) \x7b\n    option (google.api.http) = \x7b\n      post: \"/orders/\x7borderId\x7d\"\n      body: \"body\"\n    \x7d;\n  \x7d\n\x7d"

/-! Claim theorems. -/

/-- C1 (counterexample): when the success response carries its reference to
`Order` in the standard nested position (`content/application-json/schema`),
the resolved response type is the synthesized `GetOrderByIdResponse`, not
`Order`, and an auxiliary response message of that name is emitted — so the
claim that a by-reference success response always resolves to the referenced
schema's name with no synthesis is false on this document. -/
theorem c1_counterexample :
    extract_response_schema opGetOrderByIdNested docNestedRef
      = .ok ("GetOrderByIdResponse",
          some (.obj [("$ref", .str "#/components/schemas/Order")]))
    ∧ "GetOrderByIdResponse" ≠ "Order"
    ∧ outputDeclCount (generate_proto docNestedRef "api" "Default") "GetOrderByIdResponse"
        = some 1
    ∧ outputHasLine (generate_proto docNestedRef "api" "Default")
        "  rpc getOrderById (GetOrderByIdRequest) returns (GetOrderByIdResponse) \x7b" = true :=
  ⟨rfl, by decide, by decide, by decide⟩

set_option maxRecDepth 10000 in
/-- C1 (amended): when the selected success response object is itself a
`$ref` to a non-freeform schema, the resolved response type is the
PascalCased, retrieve-normalized final segment of the reference, no inline
schema is passed on, and the resolver synthesizes nothing; the
`getOrderById` example compiles exactly as the claim states when written in
that form. -/
theorem c1_direct_ref_response :
    (∀ (spec : Node) (normId : String) (success : Node) (refStr : String) (resolved : Node),
        success.hasKey "$ref" = .ok true →
        subscript success "$ref" = .ok (.str refStr) →
        resolve_ref refStr spec = .ok resolved →
        is_freeform_object resolved = false →
        responseTypeOf spec normId success
          = .ok (to_camel (normalize_operation_id (last_segment refStr)), none))
    ∧ (∀ (spec op : Node) (extras : Extras) (st : GenState) (rt : String),
        extract_response_schema op spec = .ok (rt, none) →
        resolveResponse spec op extras st = .ok (rt, extras, st))
    ∧ generate_proto docDirectRef "api" "Default" = .ok expectedDirectRef :=
  ⟨responseTypeOf_direct_ref, resolveResponse_passthrough, rfl⟩

/-- C1 (witness): the amended rule evaluated on the `getOrderById` document:
the direct `Order` reference resolves to the name `Order` itself with nothing
synthesized. -/
theorem c1_direct_ref_response_witness :
    responseTypeOf docDirectRef "getOrderById"
        (.obj [("$ref", .str "#/components/schemas/Order")])
      = .ok ("Order", none) := by
  have h := c1_direct_ref_response.1 docDirectRef "getOrderById"
    (.obj [("$ref", .str "#/components/schemas/Order")])
    "#/components/schemas/Order" orderSchema rfl rfl rfl rfl
  simpa using h

/-- C5 (counterexample): the header's built-in `message Empty {}` is never
deduplicated against generated blocks, so a document with a schema named
`Empty` produces two declarations of that name in the final artifact,
refuting artifact-wide uniqueness. -/
theorem c5_counterexample :
    outputDeclCount (generate_proto docEmptyCollision "api" "Default") "Empty" = some 2 := by
  decide

/-- C5 (amended): among the assembler's deduplicated blocks every declared
message/enum name is unique (the final pass drops any block whose first line
declares an already-seen name, first write wins); in particular two
operations referencing the same `Order` schema yield exactly one `Order`
declaration.  Only the fixed header's `Empty` declaration sits outside this
pass. -/
theorem c5_dedup_unique :
    (∀ (spec : Node) (base : String) (u : List String) (st : GenState),
        protoBlocks spec base = .ok (u, st) → (keptDeclNames u).Nodup)
    ∧ outputDeclCount (generate_proto docTwoOps "api" "Default") "Order" = some 1 := by
  constructor
  · intro spec base u st h
    unfold protoBlocks at h
    cases hs : generate_schema_messages spec initState with
    | error e => rw [hs] at h; cases h
    | ok r1 =>
      obtain ⟨schemas, st1⟩ := r1
      rw [hs] at h
      simp only [ok_bind] at h
      cases hv : generate_services spec base st1 with
      | error e => rw [hv] at h; cases h
      | ok r2 =>
        obtain ⟨services, extras, st2⟩ := r2
        rw [hv] at h
        cases h
        exact (dedupBlocks_nodup _ []).1
  · decide

/-- C5 (witness): the general dedup statement applied to a concrete
document's own block list. -/
theorem c5_dedup_unique_witness :
    (keptDeclNames ["message Holder \x7b\n  Free x = 1;\n\x7d"]).Nodup :=
  c5_dedup_unique.1 docFreeform "Default"
    ["message Holder \x7b\n  Free x = 1;\n\x7d"] initState rfl

/-- C2: when an operation has a truthy request body and kept in-location
parameters, and the composite name is still free, the resolver synthesizes
`<OperationId>Request` holding one field per parameter with tags from 1
followed by one trailing `body` field of the resolved body type at the next
tag, and that composite becomes the operation's request type. -/
theorem c2_composite_request :
    ∀ (spec : Node) (normId : String) (op : Node) (in_params : List Node)
      (extras : Extras) (st : GenState) (body : Node) (rt : String)
      (e1 : Extras) (s1 : GenState) (pfs : List Field),
      extract_body_schema op spec = .ok (some body) →
      body.truthy = true →
      resolveBodyType spec normId body extras st = .ok (rt, e1, s1) →
      in_params.isEmpty = false →
      e1.containsName (to_camel normId ++ "Request") = false →
      compositeParamFields in_params 1 = .ok pfs →
      resolveRequest spec normId op in_params extras st
        = .ok (to_camel normId ++ "Request",
            e1.push (to_camel normId ++ "Request")
              (renderMessage ⟨to_camel normId ++ "Request",
                pfs ++ [(⟨.plain rt, "body", pfs.length + 1⟩ : Field)]⟩), s1)
      ∧ pfs.length = in_params.length
      ∧ (pfs ++ [(⟨.plain rt, "body", pfs.length + 1⟩ : Field)]).map Field.tag
          = List.range' 1 (pfs.length + 1) := by
  intro spec normId op in_params extras st body rt e1 s1 pfs hb htr hbt hne hfresh hp
  have hm : compositeRequestMessage (to_camel normId ++ "Request") rt in_params
      = .ok ⟨to_camel normId ++ "Request",
          pfs ++ [(⟨.plain rt, "body", pfs.length + 1⟩ : Field)]⟩ := by
    unfold compositeRequestMessage
    rw [hp]
    simp only [ok_bind]
    rfl
  refine ⟨resolveRequest_composite spec normId op in_params extras st body rt e1 s1 _
      hb htr hbt hne hfresh hm, compositeParamFields_length in_params 1 pfs hp, ?_⟩
  have htags := compositeParamFields_tags in_params 1 pfs hp
  rw [List.map_append, htags]
  simp [List.range'_concat, Nat.add_comm]

/-- C2 (witness): `updateOrder` with path parameter `orderId` and a body
referencing `OrderUpdate` produces the composite `UpdateOrderRequest` with
`orderId` at tag 1 and the trailing `body` of type `OrderUpdate` at tag 2. -/
theorem c2_composite_request_witness :
    resolveRequest docUpdate "updateOrder" opUpdateOrder [orderIdPathParam]
        Extras.empty initState
      = .ok ("UpdateOrderRequest",
          Extras.empty.push "UpdateOrderRequest"
            (renderMessage ⟨"UpdateOrderRequest",
              [(⟨.plain "string", "orderId", 1⟩ : Field)]
                ++ [(⟨.plain "OrderUpdate", "body", 2⟩ : Field)]⟩), initState)
      ∧ [(⟨.plain "string", "orderId", 1⟩ : Field)].length = [orderIdPathParam].length
      ∧ ([(⟨.plain "string", "orderId", 1⟩ : Field)]
          ++ [(⟨.plain "OrderUpdate", "body", 2⟩ : Field)]).map Field.tag
          = List.range' 1 2 := by
  have h := c2_composite_request docUpdate "updateOrder" opUpdateOrder [orderIdPathParam]
    Extras.empty initState (.obj [("$ref", .str "#/components/schemas/OrderUpdate")])
    "OrderUpdate" Extras.empty initState [(⟨.plain "string", "orderId", 1⟩ : Field)]
    rfl rfl rfl rfl rfl rfl
  simpa using h

/-- C3: an operation whose selected success response has an inline array
schema gets a synthesized wrapper `<OperationId>Response` with the single
field `repeated T items = 1;` registered as an extra and used as the
response type; inline response types always carry the normalized
`<OperationId>Response` name, and no response type the extractor or the
resolver can return — hence no RPC return type — is a bare `repeated T`. -/
theorem c3_array_wrapper :
    (∀ (spec op : Node) (extras : Extras) (st : GenState) (rt : String)
        (inl itm : Node) (ity : String),
        extract_response_schema op spec = .ok (rt, some inl) →
        inl.get? "type" = .ok (some (.str "array")) →
        inl.getD "items" (.obj []) = .ok itm →
        arrayItemType itm = .ok ity →
        resolveResponse spec op extras st
          = .ok (rt, extras.setdefault rt (renderMessage (arrayWrapper rt ity)), st)
        ∧ (arrayWrapper rt ity).fields = [⟨.repeated ity, "items", 1⟩])
    ∧ (∀ (op spec : Node) (t : String) (inl : Node) (raw : String),
        op.get? "operationId" = .ok (some (.str raw)) →
        extract_response_schema op spec = .ok (t, some inl) →
        t = to_camel (normalize_operation_id raw) ++ "Response")
    ∧ (∀ (op spec : Node) (t : String) (i : Option Node) (T : String),
        extract_response_schema op spec = .ok (t, i) → t ≠ "repeated " ++ T)
    ∧ (∀ (spec op : Node) (extras : Extras) (st : GenState) (t : String)
        (e' : Extras) (st' : GenState) (T : String),
        resolveResponse spec op extras st = .ok (t, e', st') → t ≠ "repeated " ++ T) := by
  refine ⟨?_, extract_inline_name,
    fun op spec t i T h => extract_response_not_bare op spec t i h T, ?_⟩
  · intro spec op extras st rt inl itm ity hx hty hit hai
    exact ⟨resolveResponse_array spec op extras st rt inl itm ity hx hty hit hai, rfl⟩
  · intro spec op extras st t e' st' T h
    obtain ⟨i, hx⟩ := resolveResponse_type spec op extras st t e' st' h
    exact extract_response_not_bare op spec t i hx T

/-- C3 (witness): `listOrders` with a 200 inline array of `$ref Order` gets
the wrapper `ListOrdersResponse { repeated Order items = 1; }` as its
response type. -/
theorem c3_array_wrapper_witness :
    resolveResponse docList opListOrders Extras.empty initState
      = .ok ("ListOrdersResponse",
          Extras.empty.setdefault "ListOrdersResponse"
            (renderMessage (arrayWrapper "ListOrdersResponse" "Order")), initState)
    ∧ (arrayWrapper "ListOrdersResponse" "Order").fields
        = [⟨.repeated "Order", "items", 1⟩]
    ∧ "ListOrdersResponse" = to_camel (normalize_operation_id "listOrders") ++ "Response"
    ∧ "ListOrdersResponse" ≠ "repeated " ++ "Order" := by
  have h1 := c3_array_wrapper.1 docList opListOrders Extras.empty initState
    "ListOrdersResponse"
    (.obj [("type", .str "array"), ("items", .obj [("$ref", .str "#/components/schemas/Order")])])
    (.obj [("$ref", .str "#/components/schemas/Order")]) "Order" rfl rfl rfl rfl
  have h2 := c3_array_wrapper.2.1 opListOrders docList "ListOrdersResponse"
    (.obj [("type", .str "array"), ("items", .obj [("$ref", .str "#/components/schemas/Order")])])
    "listOrders" rfl rfl
  have h3 := c3_array_wrapper.2.2.1 opListOrders docList "ListOrdersResponse"
    (some (.obj [("type", .str "array"),
      ("items", .obj [("$ref", .str "#/components/schemas/Order")])])) "Order" rfl
  exact ⟨h1.1, h1.2, h2, h3⟩

/-- C4 (counterexample): a message field referencing the freeform schema
`Free` keeps the type name `Free` rather than receiving
`google.protobuf.Struct`, while no `message Free` is emitted — so the
substitution does not cover message fields and the artifact carries a
dangling type name. -/
theorem c4_counterexample :
    genFieldCore "x" (.obj [("$ref", .str "#/components/schemas/Free")]) initState
      = .ok ((.plain "Free", "x"), initState)
    ∧ "Free" ≠ "google.protobuf.Struct"
    ∧ is_freeform_object freeSchema = true
    ∧ outputHasLine (generate_proto docFreeform "api" "Default") "  Free x = 1;" = true
    ∧ outputDeclCount (generate_proto docFreeform "api" "Default") "Free" = some 0 :=
  ⟨rfl, by decide, by decide, by decide, by decide⟩

/-- C4 (amended): a freeform schema is skipped by the catalogue walk, and the
generic structured-value type replaces it for referenced request bodies,
inline freeform bodies, and response-object-level references — but a message
field referencing it keeps the reference's final segment as its type, with no
substitution. -/
theorem c4_freeform_substitution :
    (∀ (spec : Node) (name : String) (schema : Node) (rest : List (String × Node))
        (st : GenState),
        isEnumSchema schema = false → isArraySchema schema = false →
        is_freeform_object schema = true →
        schemasLoop spec ((name, schema) :: rest) st = schemasLoop spec rest st)
    ∧ (∀ (spec : Node) (normId : String) (l : List (String × Node)) (refStr : String)
        (resolved : Node) (extras : Extras) (st : GenState),
        lookup l "$ref" = some (.str refStr) →
        resolve_ref refStr spec = .ok resolved →
        is_freeform_object resolved = true →
        resolveBodyType spec normId (.obj l) extras st
          = .ok ("google.protobuf.Struct", extras, st))
    ∧ (∀ (spec : Node) (normId : String) (l : List (String × Node)) (extras : Extras)
        (st : GenState),
        lookup l "$ref" = none → is_freeform_object (.obj l) = true →
        resolveBodyType spec normId (.obj l) extras st
          = .ok ("google.protobuf.Struct", extras, st))
    ∧ (∀ (spec : Node) (normId : String) (success : Node) (refStr : String)
        (resolved : Node),
        success.hasKey "$ref" = .ok true →
        subscript success "$ref" = .ok (.str refStr) →
        resolve_ref refStr spec = .ok resolved →
        is_freeform_object resolved = true →
        responseTypeOf spec normId success = .ok ("google.protobuf.Struct", none))
    ∧ (∀ (prop : String) (l : List (String × Node)) (refStr : String) (st : GenState),
        getIsNotNone l "enum" = false →
        lookup l "$ref" = some (.str refStr) →
        genFieldCore prop (.obj l) st
          = .ok ((.plain (last_segment refStr), safe_name prop), st)) := by
  refine ⟨schemasLoop_skips_freeform, ?_, resolveBodyType_inline_freeform,
    responseTypeOf_ref_freeform, genFieldCore_ref⟩
  intro spec normId l refStr resolved extras st hl hr hf
  have h := resolveBodyType_ref spec normId l refStr resolved extras st hl hr
  rw [h, hf]
  simp

/-- C4 (witness): on the freeform document, the catalogue walk skips `Free`,
and a body referencing `Free` resolves to the structured-value type. -/
theorem c4_freeform_substitution_witness :
    schemasLoop docFreeform [("Free", freeSchema)] initState
      = schemasLoop docFreeform [] initState
    ∧ resolveBodyType docFreeform "createOrder"
        (.obj [("$ref", .str "#/components/schemas/Free")]) Extras.empty initState
      = .ok ("google.protobuf.Struct", Extras.empty, initState)
    ∧ genFieldCore "x" (.obj [("$ref", .str "#/components/schemas/Free")]) initState
      = .ok ((.plain "Free", "x"), initState) := by
  refine ⟨c4_freeform_substitution.1 docFreeform "Free" freeSchema [] initState rfl rfl rfl,
    c4_freeform_substitution.2.1 docFreeform "createOrder"
      [("$ref", .str "#/components/schemas/Free")] "#/components/schemas/Free"
      freeSchema Extras.empty initState rfl rfl rfl,
    c4_freeform_substitution.2.2.2.2 "x"
      [("$ref", .str "#/components/schemas/Free")] "#/components/schemas/Free"
      initState rfl rfl⟩

/-- C6: for every message the compiler emits — schema messages, parameter
request messages, composite requests, and array wrappers — field tags are a
strictly increasing dense sequence 1, 2, …, n in declaration order, with no
gaps and no reuse. -/
theorem c6_dense_tags :
    (∀ (name : String) (schema spec : Node) (st : GenState) (m : MessageDef)
        (st' : GenState),
        generate_message_from_schema name schema spec st = .ok (m, st') → denseFrom1 m)
    ∧ (∀ (name : String) (ps : List Node) (m : MessageDef),
        generate_param_message name ps = .ok m → denseFrom1 m)
    ∧ (∀ (rname rt : String) (ps : List Node) (m : MessageDef),
        compositeRequestMessage rname rt ps = .ok m → denseFrom1 m)
    ∧ (∀ (name ity : String), denseFrom1 (arrayWrapper name ity)) :=
  ⟨generate_message_dense, generate_param_message_dense, compositeRequestMessage_dense,
    fun name ity => rfl⟩

/-- C6 (witness): the `Order` schema compiles to tags `[1, 2]`, dense from
1. -/
theorem c6_dense_tags_witness :
    denseFrom1 ⟨"Order", [⟨.plain "string", "id", 1⟩, ⟨.plain "double", "total", 2⟩]⟩ :=
  c6_dense_tags.1 "Order" orderSchema docDirectRef initState
    ⟨"Order", [⟨.plain "string", "id", 1⟩, ⟨.plain "double", "total", 2⟩]⟩ initState rfl

/-- C7: every freshly generated enum carries the `<NAME>_UNSPECIFIED`
sentinel as member 0 with the remaining tags dense; on a declared literal
list each literal becomes its uppercased sanitized identifier with tags 1..N
in source order; and a name already registered is never emitted again. -/
theorem c7_enum_shape :
    (∀ (name : String) (schema : Node) (st : GenState) (e : EnumDef) (st' : GenState),
        generate_enum name schema st = .ok (some e, st') →
        e.name = name
          ∧ e.members.head? = some ⟨pyUpper name ++ "_UNSPECIFIED", 0⟩
          ∧ e.members.map EnumMember.tag = List.range' 0 e.members.length)
    ∧ (∀ (name : String) (ls : List String) (st : GenState), name ∉ st.enums_defined →
        generate_enum name (.obj [("enum", .arr (ls.map Node.str))]) st
          = .ok (some ⟨name, ⟨pyUpper name ++ "_UNSPECIFIED", 0⟩ ::
              (ls.zip (List.range' 1 ls.length)).map
                (fun p => ⟨pyUpper (safe_name p.1), p.2⟩)⟩,
              { st with enums_defined := st.enums_defined ++ [name] }))
    ∧ (∀ (name : String) (schema : Node) (st : GenState), name ∈ st.enums_defined →
        generate_enum name schema st = .ok (none, st)) :=
  ⟨generate_enum_sentinel, generate_enum_literals, generate_enum_dedup⟩

/-- C7 (witness): the `Status` enum over `new, shipped` gets the sentinel at
0 and `NEW = 1`, `SHIPPED = 2`; re-registering `Status` emits nothing. -/
theorem c7_enum_shape_witness :
    generate_enum "Status" (.obj [("enum", .arr (["new", "shipped"].map Node.str))]) initState
      = .ok (some ⟨"Status", [⟨"STATUS_UNSPECIFIED", 0⟩, ⟨"NEW", 1⟩, ⟨"SHIPPED", 2⟩]⟩,
          ⟨["Status"], []⟩)
    ∧ generate_enum "Status" statusEnumSchema ⟨["Status"], []⟩ = .ok (none, ⟨["Status"], []⟩) := by
  have h1 := c7_enum_shape.2.1 "Status" ["new", "shipped"] initState (by decide)
  have h2 := c7_enum_shape.2.2 "Status" statusEnumSchema ⟨["Status"], []⟩ (by decide)
  exact ⟨by simpa using h1, h2⟩

/-- C8: dereferencing a pointer whose walk meets an absent segment raises
exactly the walk's error, and a document whose compilation dereferences such
a pointer aborts whole: `generate_proto` returns the error and no artifact
text exists. -/
theorem c8_resolution_aborts :
    (∀ (spec : Node) (ref : String) (e : String),
        walkError spec (refSegments ref) = some e → resolve_ref ref spec = .error e)
    ∧ generate_proto docDangling "api" "Default" = .error "KeyError: requestBodies"
    ∧ outputDeclCount (generate_proto docDangling "api" "Default") "Order" = none :=
  ⟨fun spec ref e h => walk_error (refSegments ref) spec e h, rfl, rfl⟩

/-- C8 (witness): the dangling `#/components/requestBodies/Missing` pointer
of the example document fails with the `KeyError` of its absent segment. -/
theorem c8_resolution_aborts_witness :
    resolve_ref "#/components/requestBodies/Missing" docDangling
      = .error "KeyError: requestBodies" :=
  c8_resolution_aborts.1 docDangling "#/components/requestBodies/Missing"
    "KeyError: requestBodies" rfl

/-- C9: the compiler's output is independent of whatever state the run-scoped
registries carried before the run (they are cleared on entry), so compiling
the same document, package and service name twice — in particular right
after a previous run — yields byte-identical text. -/
theorem c9_deterministic :
    ∀ (g g' : GenState) (spec : Node) (pkg base : String),
      (generate_protoG g spec pkg base).1 = (generate_protoG g' spec pkg base).1
      ∧ (generate_protoG (generate_protoG g spec pkg base).2 spec pkg base).1
          = (generate_protoG g spec pkg base).1
      ∧ (generate_protoG g spec pkg base).1 = generate_proto spec pkg base :=
  fun g g' spec pkg base => ⟨rfl, rfl, rfl⟩

set_option maxRecDepth 10000 in
/-- C10: a `retrieve`-prefixed operationId (any letter case) is rewritten to
`get` before PascalCasing for every synthesized wrapper name, while the rpc
keeps the verbatim id: `retrieveOrder` yields `GetOrderRequest`,
`GetOrderBody`, `GetOrderResponse` and `rpc retrieveOrder … `, as the full
artifact of the example document shows. -/
theorem c10_retrieve_normalization :
    (∀ (op : String), "retrieve".data.isPrefixOf (pyLower op).data = true →
        normalize_operation_id op = "get" ++ (⟨op.data.drop 8⟩ : String))
    ∧ normalize_operation_id "retrieveOrder" = "getOrder"
    ∧ to_camel (normalize_operation_id "retrieveOrder") ++ "Request" = "GetOrderRequest"
    ∧ generate_proto docRetrieve "api" "Default" = .ok expectedRetrieve := by
  refine ⟨?_, rfl, rfl, rfl⟩
  intro op h
  unfold normalize_operation_id
  rw [if_pos h]

/-- C10 (witness): the normalization equation evaluated at `retrieveOrder`. -/
theorem c10_retrieve_normalization_witness :
    normalize_operation_id "retrieveOrder" = "get" ++ ("retrieveOrder".data.drop 8 : List Char).asString :=
  c10_retrieve_normalization.1 "retrieveOrder" (by decide)

end OpenapiToProto
